import Mathlib

/-!
# CWSL_DIGI: activity statistics (`Stats.hpp`) and WSPRNet uploader (`WSPRNet.hpp`)

A shallow embedding of the two classes and theorems about them.

Conventions of the embedding
* `std::uint64_t` / `std::uint32_t` / `std::size_t` values are natural numbers; the one
  operation of the source that can wrap, the unsigned subtraction `mt - intervalMs`, is
  `sub64` (reduction modulo `2 ^ 64`).
* `std::vector<T>` is `List T`; `SafeQueue<T>` is a list whose head is the front of the
  queue (`enqueue` appends at the back, `dequeue` removes the head).
* The wall clock `getEpochTimeMs()` is an explicit argument `mt` of every operation that
  reads it.
-/

set_option maxRecDepth 100000

namespace CWSL

/-! ## Stats.hpp -/

/-- The modulus of `std::uint64_t` arithmetic. -/
def U64 : Nat := 2 ^ 64

/-- The difference `a - b` of two `std::uint64_t` values as C++ computes it: modulo `2 ^ 64`. -/
def sub64 (a b : Nat) : Nat := (a % U64 + (U64 - b % U64)) % U64

/-- Modelled from the spec: `SafeQueue<T>` (`SafeQueue.h` is not among the sources) is a
thread-safe FIFO with `enqueue`, `dequeue`, `size` and `empty`.  It is a list whose head is
the front of the queue; `empty()` is the test for `[]` and `dequeue()` removes the head. -/
abbrev SafeQueue (α : Type) := List α

/-- Modelled from the spec: `SafeQueue<T>::enqueue` appends the item at the back. -/
abbrev SafeQueue.enqueue {α : Type} (q : SafeQueue α) (item : α) : SafeQueue α := q ++ [item]

/-- `struct StatsItem`. -/
structure StatsItem where
  instanceId : Nat
  tsMs : Nat
deriving DecidableEq, Repr

/-- `using DecoderStats = std::vector<std::uint64_t>`. -/
abbrev DecoderStats := List Nat

/-- The data members of `class Stats`. -/
structure Stats where
  maxIntervalSec : Nat
  maxIntervalMs : Nat
  numDecoders : Nat
  decoderStatsVec : List DecoderStats
  reports : SafeQueue StatsItem
deriving DecidableEq, Repr

/-- `Stats::getCounts(intervalSec, printer)` with the clock reading `mt`: for each decoder the
number of stored timestamps `stats[k]` with `stats[k] >= mt - intervalMs` (unsigned). -/
def Stats.getCounts (st : Stats) (intervalSec mt : Nat) : List Nat :=
  let intervalMs := intervalSec * 1000
  st.decoderStatsVec.map
    (fun stats => stats.countP (fun x => decide (sub64 mt intervalMs ≤ x)))

/-- `Stats::handleReport(instanceId, tsMs)`: enqueue a `StatsItem`. -/
def Stats.handleReport (st : Stats) (instanceId tsMs : Nat) : Stats :=
  { st with reports := st.reports.enqueue ⟨instanceId, tsMs⟩ }

/-- The `while (!reports.empty())` loop of `Stats::process`: every queued item is appended to
the history `decoderStatsVec[item.instanceId]`.  Indexing outside the vector is undefined in
the source; here it makes the result `none`. -/
def Stats.drain : List StatsItem → List DecoderStats → Option (List DecoderStats)
  | [], vec => some vec
  | item :: rest, vec =>
    match vec[item.instanceId]? with
    | none => none
    | some dec => Stats.drain rest (vec.set item.instanceId (dec ++ [item.tsMs]))

/-- The inner `while (!dec.empty())` loop of `Stats::prune`: erase the front element as long
as it is `<= mt - maxIntervalMs`. -/
def pruneFront (cutoff : Nat) : DecoderStats → DecoderStats
  | [] => []
  | dv :: rest => if dv ≤ cutoff then pruneFront cutoff rest else dv :: rest

/-- `Stats::prune()` with the clock reading `mt`: each history is sorted ascending
(`std::sort`) and then trimmed from the front. -/
def Stats.prune (st : Stats) (mt : Nat) : Stats :=
  { st with
    decoderStatsVec := st.decoderStatsVec.map
      (fun dec => pruneFront (sub64 mt st.maxIntervalMs) (dec.insertionSort (· ≤ ·))) }

/-- `Stats::process()` with the clock reading `mt`: drain the queue, then prune. -/
def Stats.process (st : Stats) (mt : Nat) : Option Stats :=
  match Stats.drain st.reports st.decoderStatsVec with
  | none => none
  | some vec => some (Stats.prune { st with decoderStatsVec := vec, reports := [] } mt)

/-- Recording a whole sequence of events with `handleReport`, in order. -/
def Stats.record (st : Stats) (evs : List StatsItem) : Stats :=
  evs.foldl (fun acc e => acc.handleReport e.instanceId e.tsMs) st

/-- The timestamps queued for decoder `s`, in queue order. -/
def queuedFor (s : Nat) (q : List StatsItem) : List Nat :=
  (q.filter (fun e => decide (e.instanceId = s))).map (fun e => e.tsMs)

/-! ## WSPRNet.hpp -/

/-- `std::string`: a sequence of `char`, one list element per byte. -/
abbrev Str := List Char

/-! ### Text output of numbers (`operator<<`, `std::to_string`) -/

/-- The character of a decimal digit `d < 10`. -/
def digitChar (d : Nat) : Char := Char.ofNat (48 + d)

/-- Decimal digits of `n`, most significant first; `fuel` bounds the number of digits. -/
def natTextFuel : Nat → Nat → Str
  | 0, _ => []
  | fuel + 1, n =>
    if n < 10 then [digitChar n] else natTextFuel fuel (n / 10) ++ [digitChar (n % 10)]

/-- The decimal text of an unsigned value, as `std::to_string` and `operator<<` write it. -/
def natText (n : Nat) : Str := natTextFuel (n + 1) n

/-- The decimal text of a signed integer as `operator<<` writes it: a `-` for negative
values, no sign otherwise. -/
def intText (z : Int) : Str :=
  if z < 0 then '-' :: natText z.natAbs else natText z.toNat

/-- The effect of `std::setfill('0') << std::setw(2)` on the next integer written: the text
is padded on the left with `0` up to width 2 and is never truncated. -/
def setw2 (z : Int) : Str :=
  List.replicate (2 - (intText z).length) '0' ++ intText z

/-! ### Single-precision arithmetic

A finite IEEE-754 value is kept exactly, as `(-1)^neg * mant * 2^exp`.  Rounding is to
nearest, ties to even, with the 24-bit significand of `float`.  Infinities, NaN, subnormal
results and overflow are outside the model. -/

/-- A finite floating-point value `(-1)^neg * mant * 2^exp`. -/
structure Flt where
  neg : Bool
  mant : Nat
  exp : Int
deriving DecidableEq, Repr

/-- The integer nearest to `num / den`, ties going to the even one. -/
def roundHalfEven (num den : Nat) : Nat :=
  let q := num / den
  let r := num % den
  if 2 * r < den then q
  else if den < 2 * r then q + 1
  else if q % 2 = 0 then q else q + 1

/-- Floor of the binary logarithm, by repeated halving; `fuel` bounds the number of steps. -/
def log2Fuel : Nat → Nat → Nat
  | 0, _ => 0
  | fuel + 1, n => if 2 ≤ n then log2Fuel fuel (n / 2) + 1 else 0

/-- Floor of the binary logarithm of `n` (`0` for `n = 0`). -/
def ilog2 (n : Nat) : Nat := log2Fuel n n

/-- The `float` nearest to the rational `num / den` (`den > 0`), with sign `neg`: the
quotient is scaled into `[2^23, 2^24)` and rounded to an integer significand. -/
def Flt.ofRatio (neg : Bool) (num den : Nat) : Flt :=
  if num = 0 then ⟨neg, 0, 0⟩
  else
    let d : Int := (ilog2 num : Int) - (ilog2 den : Int)
    let e : Int := if num * 2 ^ (-d).toNat < den * 2 ^ d.toNat then d - 1 else d
    let s : Int := 23 - e
    ⟨neg, roundHalfEven (num * 2 ^ s.toNat) (den * 2 ^ (-s).toNat), -s⟩

/-- `static_cast<float>(n)` for an unsigned integer `n`. -/
def Flt.ofNat (n : Nat) : Flt := Flt.ofRatio false n 1

/-- The quotient `a / b` of two `float`s (`b` non-zero), correctly rounded. -/
def Flt.div (a b : Flt) : Flt :=
  Flt.ofRatio (xor a.neg b.neg)
    (a.mant * 2 ^ a.exp.toNat * 2 ^ (-b.exp).toNat)
    (b.mant * 2 ^ b.exp.toNat * 2 ^ (-a.exp).toNat)

/-- The text `operator<<` writes for a floating-point value under `std::fixed` with
`std::setprecision(prec)`, `prec > 0`: the value rounded to `prec` decimals, integer part,
`.`, and `prec` fraction digits. -/
def Flt.putFixed (prec : Nat) (v : Flt) : Str :=
  let n := roundHalfEven (v.mant * 2 ^ v.exp.toNat * 10 ^ prec) (2 ^ (-v.exp).toNat)
  let frac := natText (n % 10 ^ prec)
  (if v.neg then ['-'] else []) ++ natText (n / 10 ^ prec) ++ ['.'] ++
    List.replicate (prec - frac.length) '0' ++ frac

/-! ### UTC calendar (`gmtime`) -/

/-- The fields of `struct tm` that `sendReport` reads. -/
structure Tm where
  tm_year : Int
  tm_mon : Int
  tm_mday : Int
  tm_hour : Int
  tm_min : Int
deriving DecidableEq, Repr

/-- The civil year (Gregorian calendar) of day number `days` counted from 1970-01-01, its month
`1..12` and its day of month `1..31`. -/
def civilFromDays (days : Nat) : Nat × Nat × Nat :=
  let z := days + 719468
  let era := z / 146097
  let doe := z % 146097
  let yoe := (doe - doe / 1460 + doe / 36524 - doe / 146096) / 365
  let doy := doe - (365 * yoe + yoe / 4 - yoe / 100)
  let mp := (5 * doy + 2) / 153
  let d := doy - (153 * mp + 2) / 5 + 1
  let m := if mp < 10 then mp + 3 else mp - 9
  let y := yoe + era * 400 + (if m ≤ 2 then 1 else 0)
  (y, m, d)

/-- `gmtime` on a `time_t` holding `tt` seconds since 1970-01-01T00:00:00Z: the broken-down
UTC time, `tm_year` counted from 1900 and `tm_mon` from 0. -/
def gmtime (tt : Nat) : Tm :=
  let ymd := civilFromDays (tt / 86400)
  let secs := tt % 86400
  { tm_year := (ymd.1 : Int) - 1900
    tm_mon := (ymd.2.1 : Int) - 1
    tm_mday := ymd.2.2
    tm_hour := (secs / 3600 : Nat)
    tm_min := (secs % 3600 / 60 : Nat) }


/-! ### Reports and the request text -/

/-- `wspr::Report`. -/
structure Report where
  callsign : Str
  snr : Int
  freq : Nat
  locator : Str
  epochTime : Nat
  mode : Str
  dt : Flt
  drift : Int
  recvfreq : Nat
  dbm : Int
  reporterCallsign : Str
deriving DecidableEq, Repr

/-- The constants `PROGRAM_NAME` and `PROGRAM_VERSION` of `CWSL_DIGI.hpp` (not part of the
two files embedded here): the text `operator<<` writes for each of them. -/
structure ProgramId where
  PROGRAM_NAME : Str
  PROGRAM_VERSION : Str
deriving DecidableEq, Repr

/-- The frequency text of `sendReport`: `static_cast<float>(hz) / static_cast<float>(1000000.0)`
written with `std::fixed << std::setprecision(6)`. -/
def mhzText (hz : Nat) : Str :=
  ((Flt.ofNat hz).div (Flt.ofNat 1000000)).putFixed 6

/-- The value written after `date=`: `tm_year - 100`, `tm_mon + 1` and `tm_mday` of
`gmtime(epochTime)`, each with `setfill('0')` and `setw(2)`. -/
def dateText (epochTime : Nat) : Str :=
  let utc := gmtime epochTime
  setw2 (utc.tm_year - 100) ++ setw2 (utc.tm_mon + 1) ++ setw2 utc.tm_mday

/-- The value written after `time=`: `tm_hour` and `tm_min`, each with `setfill('0')` and
`setw(2)`. -/
def timeText (epochTime : Nat) : Str :=
  let utc := gmtime epochTime
  setw2 utc.tm_hour ++ setw2 utc.tm_min

/-- The stream `content` of `sendReport` after the last insertion: the request body. -/
def contentText (pid : ProgramId) (operatorGrid : Str) (report : Report) : Str :=
  "function=".toList ++ "wspr".toList ++ "&".toList ++
  "rcall=".toList ++ report.reporterCallsign ++ "&".toList ++
  "rgrid=".toList ++ operatorGrid ++ "&".toList ++
  "rqrg=".toList ++ mhzText report.recvfreq ++ "&".toList ++
  "date=".toList ++ dateText report.epochTime ++ "&".toList ++
  "time=".toList ++ timeText report.epochTime ++ "&".toList ++
  "sig=".toList ++ intText report.snr ++ "&".toList ++
  "dt=".toList ++ report.dt.putFixed 2 ++ "&".toList ++
  "drift=".toList ++ intText report.drift ++ "&".toList ++
  "tcall=".toList ++ report.callsign ++ "&".toList ++
  "tgrid=".toList ++ report.locator ++ "&".toList ++
  "tqrg=".toList ++ mhzText report.freq ++ "&".toList ++
  "dbm=".toList ++ intText report.dbm ++ "&".toList ++
  "version=".toList ++ pid.PROGRAM_NAME ++ " ".toList ++ pid.PROGRAM_VERSION ++ "&".toList ++
  "mode=2".toList

/-- The stream `request` of `sendReport`: the request line. -/
def requestText : Str := "POST /post? HTTP/1.1\r\n".toList

/-- The stream `header` of `sendReport`, `contentLength` being `content.tellp()` after
`content.seekp(0, ios::end)`. -/
def headerText (contentLength : Nat) : Str :=
  "Connection: Keep-Alive\r\n".toList ++
  "Host: wsprnet.org\r\n".toList ++
  "Content-Type: application/x-www-form-urlencoded\r\n".toList ++
  "Content-Length: ".toList ++ natText contentLength ++ "\r\n".toList ++
  "Accept-Language: en-US,*\r\n".toList ++
  "User-Agent: Mozilla/5.0\r\n".toList

/-- The stream `all` of `sendReport`: header block, blank line, body. -/
def allText (pid : ProgramId) (operatorGrid : Str) (report : Report) : Str :=
  let content := contentText pid operatorGrid report
  headerText content.length ++ "\r\n".toList ++ content

/-! ### The transport

The socket calls are replaced by a scripted transport: for each kind of call a function gives
the outcome of the call number `k` (counted from 0), and the state records how many calls of
each kind have been made and what was handed to `sendMessage`.  Every call is also appended,
in the order in which the calls are made, to the list `trace`, and so is every report the
worker takes off its queue. -/

/-- The three ways `connectSocket` can go: `socket()` fails, `connect()` fails, or the
connection is established. -/
inductive ConnectOutcome where
  | socketFailed
  | connectFailed
  | connected
deriving DecidableEq, Repr

/-- One entry of the trace: `connectSocket()` with its outcome, `mReports.dequeue()` with the
report it returned, `sendMessage(message)`, `readMessage()`, or `closeSocket()` with the
status `closesocket` returned. -/
inductive Event where
  | connect (outcome : ConnectOutcome)
  | dequeue (report : Report)
  | send (message : Str)
  | read
  | close (status : Int)
deriving DecidableEq, Repr

/-- The entries made inside `sendReport`: calls of `sendMessage` and of `readMessage`. -/
def Event.isTransfer : Event → Bool
  | .send _ => true
  | .read => true
  | _ => false

/-- The scripted transport and its call record. -/
structure Net where
  connectOutcome : Nat → ConnectOutcome
  sendMessageResult : Nat → Int
  readMessageResult : Nat → Str
  closeStatus : Nat → Int
  connectCalls : Nat
  sendLog : List Str
  readCalls : Nat
  closeCalls : Nat
  openSockets : Nat
  trace : List Event

/-- Append one entry to the trace. -/
def Net.record (net : Net) (e : Event) : Net := { net with trace := net.trace ++ [e] }

/-- `SOCKET_ERROR` of `winsock.h`. -/
def SOCKET_ERROR : Int := -1

/-- Conversion of an `int` to `std::size_t` (64 bits), as the comparison
`bytesSent == message.size()` performs it. -/
def toSizeT (z : Int) : Nat := (z % 2 ^ 64).toNat

/-- `WSPRNet::connectSocket()`: `socket()` then `connect()`; a socket that was created stays
open whether or not `connect()` succeeds. -/
def Net.connectSocket (net : Net) : Bool × Net :=
  match net.connectOutcome net.connectCalls with
  | .socketFailed =>
    (false, { net with connectCalls := net.connectCalls + 1,
                       trace := net.trace ++ [.connect .socketFailed] })
  | .connectFailed =>
    (false, { net with connectCalls := net.connectCalls + 1, openSockets := net.openSockets + 1,
                       trace := net.trace ++ [.connect .connectFailed] })
  | .connected =>
    (true, { net with connectCalls := net.connectCalls + 1, openSockets := net.openSockets + 1,
                      trace := net.trace ++ [.connect .connected] })

/-- `WSPRNet::closeSocket()`: `closesocket(mSocket)`, `true` when it returns 0. -/
def Net.closeSocket (net : Net) : Bool × Net :=
  if net.closeStatus net.closeCalls ≠ 0 then
    (false, { net with closeCalls := net.closeCalls + 1,
                       trace := net.trace ++ [.close (net.closeStatus net.closeCalls)] })
  else
    (true, { net with closeCalls := net.closeCalls + 1, openSockets := net.openSockets - 1,
                      trace := net.trace ++ [.close (net.closeStatus net.closeCalls)] })

/-- One call `sendMessage(message)`: the scripted return value; the message is recorded. -/
def Net.sendMessage (net : Net) (message : Str) : Int × Net :=
  (net.sendMessageResult net.sendLog.length,
    { net with sendLog := net.sendLog ++ [message], trace := net.trace ++ [.send message] })

/-- One call `readMessage()`: the scripted result. -/
def Net.readMessage (net : Net) : Str × Net :=
  (net.readMessageResult net.readCalls,
    { net with readCalls := net.readCalls + 1, trace := net.trace ++ [.read] })

/-- The `while (tries <= 2)` loop of `sendMessageWithRetry`, entered with the given value of
`tries`; `fuel` bounds the number of iterations. -/
def sendMessageWithRetryLoop (message : Str) : Nat → Nat → Net → Bool × Net
  | 0, _, net => (false, net)
  | fuel + 1, tries, net =>
    if tries ≤ 2 then
      let tries := tries + 1
      let r := net.sendMessage message
      let bytesSent := r.1
      if toSizeT bytesSent = message.length then (true, r.2)
      else if bytesSent = SOCKET_ERROR then (false, r.2)
      else sendMessageWithRetryLoop message fuel tries r.2
    else (false, net)

/-- `WSPRNet::sendMessageWithRetry(message)`. -/
def sendMessageWithRetry (message : Str) (net : Net) : Bool × Net :=
  sendMessageWithRetryLoop message 3 0 net

/-- The `do ... while (response.empty() && numTries <= 3)` loop of `sendReport`, entered with
the given `numTries` and `response`; `fuel` bounds the number of iterations.  The result is
the final `numTries`, the final `response` and the transport. -/
def readResponseLoop : Nat → Nat → Str → Net → Nat × Str × Net
  | 0, numTries, response, net => (numTries, response, net)
  | fuel + 1, numTries, response, net =>
    let numTries := numTries + 1
    let r := net.readMessage
    let response := response ++ r.1
    if response.isEmpty && decide (numTries ≤ 3) then readResponseLoop fuel numTries response r.2
    else (numTries, response, r.2)

/-- `WSPRNet::sendReport(report)`. -/
def sendReport (pid : ProgramId) (operatorGrid : Str) (report : Report) (net : Net) :
    Bool × Net :=
  let s1 := sendMessageWithRetry requestText net
  if !s1.1 then (false, s1.2)
  else
    let s2 := sendMessageWithRetry (allText pid operatorGrid report) s1.2
    if !s2.1 then (false, s2.2)
    else
      let r := readResponseLoop 4 0 [] s2.2
      if r.2.1.length ≠ 0 then (true, r.2.2) else (false, r.2.2)

/-- Increment of a `std::atomic_int` (32-bit two's complement). -/
def atomicIncr (c : Int) : Int := (c + 1 + 2 ^ 31) % 2 ^ 32 - 2 ^ 31

/-- The data members of `class WSPRNet` that the worker reads and writes, the transport
standing for `mSocket`. -/
structure WSPRNet where
  operatorGrid : Str
  mReports : SafeQueue Report
  mCountSendsOK : Int
  mCountSendsErrored : Int
  terminateFlag : Bool
  net : Net

/-- `WSPRNet::handle(...)`: build a report and enqueue it. -/
def WSPRNet.handle (w : WSPRNet) (callsign : Str) (snr : Int) (dt : Flt) (drift dbm : Int)
    (freq rf epochTime : Nat) (grid reporterCallsign : Str) : WSPRNet :=
  let rep : Report :=
    { callsign := callsign, snr := snr, freq := freq, locator := grid, epochTime := epochTime,
      mode := [], dt := dt, drift := drift, recvfreq := rf, dbm := dbm,
      reporterCallsign := reporterCallsign }
  { w with mReports := w.mReports.enqueue rep }

/-- `WSPRNet::sendReportWrapper(report)`. -/
def WSPRNet.sendReportWrapper (pid : ProgramId) (w : WSPRNet) (report : Report) : WSPRNet :=
  let status := sendReport pid w.operatorGrid report w.net
  if status.1 then { w with mCountSendsOK := atomicIncr w.mCountSendsOK, net := status.2 }
  else { w with mCountSendsErrored := atomicIncr w.mCountSendsErrored, net := status.2 }

/-- One pass through the body of `while (!mReports.empty())` in `processingLoop`, entered with
a non-empty queue (with an empty queue the body is not entered and nothing changes). -/
def WSPRNet.drainIteration (pid : ProgramId) (w : WSPRNet) : WSPRNet :=
  match w.mReports with
  | [] => w
  | report :: rest =>
    let c := w.net.connectSocket
    if !c.1 then { w with net := c.2 }
    else
      let w1 := WSPRNet.sendReportWrapper pid
        { w with mReports := rest, net := c.2.record (.dequeue report) } report
      { w1 with net := w1.net.closeSocket.2 }

/-- The loop `while (!mReports.empty()) { ... }` of `processingLoop`; `none` when `fuel`
iterations were not enough for the queue to become empty. -/
def WSPRNet.drainLoop (pid : ProgramId) : Nat → WSPRNet → Option WSPRNet
  | 0, w => if w.mReports.isEmpty then some w else none
  | fuel + 1, w =>
    if w.mReports.isEmpty then some w
    else WSPRNet.drainLoop pid fuel (WSPRNet.drainIteration pid w)

/-- The frequency text the specification describes: the decimal digits of `hz / 1000000`, a
`.`, and `hz % 1000000` zero-padded to six digits. -/
def exactMhzText (hz : Nat) : Str :=
  natText (hz / 1000000) ++ ['.'] ++
    List.replicate (6 - (natText (hz % 1000000)).length) '0' ++ natText (hz % 1000000)

/-- The two decimal digits of `n < 100`, zero-padded: tens digit, units digit. -/
def twoDigits (n : Nat) : Str := [digitChar (n / 10), digitChar (n % 10)]

/-! ### Reading a request back

The functions below are not part of the program: they read a message the way a receiver
does, and serve to state what the header and the body of the request are. -/

/-- The rest of the text `s` after its prefix `pat`, when `s` starts with `pat`. -/
def matchAt : Str → Str → Option Str
  | [], s => some s
  | _ :: _, [] => none
  | p :: ps, c :: cs => if p = c then matchAt ps cs else none

/-- What follows the first occurrence of `pat` in a text, when there is one. -/
def findAfter (pat : Str) : Str → Option Str
  | [] => matchAt pat []
  | c :: cs =>
    match matchAt pat (c :: cs) with
    | some rest => some rest
    | none => findAfter pat cs

/-- The number a string of decimal digits denotes. -/
def parseDecimal (s : Str) : Nat := s.foldl (fun acc c => 10 * acc + (c.toNat - 48)) 0

/-- The digits written right after the first `Content-Length: ` of a message. -/
def contentLengthDigits (msg : Str) : Option Str :=
  (findAfter "Content-Length: ".toList msg).map (fun rest => rest.takeWhile Char.isDigit)

/-- The number written after `Content-Length: ` in a message. -/
def declaredContentLength (msg : Str) : Option Nat :=
  (contentLengthDigits msg).map parseDecimal

/-- The body of a message: everything after the first blank line. -/
def messageBody (msg : Str) : Option Str := findAfter "\r\n\r\n".toList msg

/-- A piece `key=value` split at its first `=`. -/
def splitKeyValue (s : Str) : Str × Str :=
  (s.takeWhile (fun c => decide (c ≠ '=')), (s.dropWhile (fun c => decide (c ≠ '='))).drop 1)

/-- The key/value pairs of a form body: the body is split on `&` and every piece at its
first `=`. -/
def formPairs (body : Str) : List (Str × Str) :=
  (body.splitOn '&').map splitKeyValue

/-! ### `sendMessage` at the level of `send()`

Below `sendMessage` the socket is scripted call by call: `sendResult k` is the value the
call number `k` of `send()` returns, and `written` collects the bytes that `send()` took. -/

/-- The socket as `sendMessage` sees it. -/
structure Wire where
  sendResult : Nat → Int
  sendCalls : Nat
  written : Str

/-- One call `send(mSocket, buf, len, NULL)` with the bytes `buf`: the scripted value is
returned; unless it is `SOCKET_ERROR`, that many bytes from the front of `buf` are taken. -/
def Wire.send (w : Wire) (buf : Str) : Int × Wire :=
  let bytes := w.sendResult w.sendCalls
  (bytes, { w with
    sendCalls := w.sendCalls + 1
    written := if bytes = SOCKET_ERROR then w.written else w.written ++ buf.take bytes.toNat })

/-- `static_cast<int>(n)` for a `std::size_t` value `n` (32-bit two's complement). -/
def toInt32 (n : Nat) : Int := ((n : Int) + 2 ^ 31) % 2 ^ 32 - 2 ^ 31

/-- The `do ... while (sent < total)` loop of `sendMessage`, entered with the given `sent`;
`fuel` bounds the number of iterations, `none` when they were not enough. -/
def sendMessageLoop (message : Str) (total : Int) : Nat → Int → Wire → Option (Int × Wire)
  | 0, _, _ => none
  | fuel + 1, sent, w =>
    let r := w.send ((message.drop sent.toNat).take (total - sent).toNat)
    let bytes := r.1
    if bytes = SOCKET_ERROR then some (SOCKET_ERROR, r.2)
    else
      let sent := sent + bytes
      if sent < total then sendMessageLoop message total fuel sent r.2
      else some (sent, r.2)

/-- `WSPRNet::sendMessage(message)`. -/
def sendMessage (fuel : Nat) (message : Str) (w : Wire) : Option (Int × Wire) :=
  sendMessageLoop message (toInt32 message.length) fuel 0 w

/-- The behaviour of `send()` that the all-or-error property assumes, for the next `n` calls
of one `sendMessage` run that has `sent` bytes behind it and makes its next call as call
number `k`: the call returns `SOCKET_ERROR` or a count between 0 and the number of bytes
still unsent, and the same holds for the calls after it as long as bytes remain. -/
def SendContract (sendResult : Nat → Int) (total : Int) : Nat → Nat → Int → Prop
  | 0, _, _ => True
  | n + 1, k, sent =>
    sendResult k = SOCKET_ERROR ∨
      (0 ≤ sendResult k ∧ sendResult k ≤ total - sent ∧
        (sent + sendResult k < total →
          SendContract sendResult total n (k + 1) (sent + sendResult k)))

/-- The bytes handed to the socket since the first `before` calls of `sendMessage`: the
messages of the later calls, one after the other. -/
def Net.bytesSince (net : Net) (before : Nat) : Str := (net.sendLog.drop before).flatten

/-- One delivery as the drain loop performs it once a connection is established: connect,
the dequeue of the report (entered in the trace; the queue itself is left alone here),
`sendReportWrapper` for the report, close. -/
def WSPRNet.deliver (pid : ProgramId) (w : WSPRNet) (report : Report) : WSPRNet :=
  let w1 := WSPRNet.sendReportWrapper pid
    { w with net := w.net.connectSocket.2.record (.dequeue report) } report
  { w1 with net := w1.net.closeSocket.2 }

/-! ### Data for the worked examples -/

/-- The report of the specification's end-to-end scenario (`dt` is the `float` nearest to
0.3), stamped 2024-02-29 12:34:56 UTC. -/
def exampleReport : Report :=
  { callsign := "K1ABC".toList, snr := -12, freq := 7040100, locator := "FN42".toList,
    epochTime := 1709210096, mode := [], dt := Flt.ofRatio false 3 10, drift := 0,
    recvfreq := 7040125, dbm := 23, reporterCallsign := "W2AXR".toList }

/-- A program name and version for the examples. -/
def examplePid : ProgramId := ⟨"CWSL_DIGI".toList, "0.88".toList⟩

/-- A transport on which nothing has happened yet, with the given scripts; `closesocket`
always succeeds. -/
def scriptedNet (conn : Nat → ConnectOutcome) (sends : Nat → Int) (reads : Nat → Str) : Net :=
  { connectOutcome := conn, sendMessageResult := sends, readMessageResult := reads,
    closeStatus := fun _ => 0, connectCalls := 0, sendLog := [], readCalls := 0,
    closeCalls := 0, openSockets := 0, trace := [] }

/-- An uploader with the given queue and transport, counters at zero. -/
def exampleUploader (queue : List Report) (net : Net) : WSPRNet :=
  { operatorGrid := "FN20".toList, mReports := queue, mCountSendsOK := 0,
    mCountSendsErrored := 0, terminateFlag := false, net := net }

/-- A tracker with retention 10 s, two sources, an unsorted history and three queued
events. -/
def exampleTracker : Stats :=
  { maxIntervalSec := 10, maxIntervalMs := 10000, numDecoders := 2,
    decoderStatsVec := [[99000, 91000, 80000], []],
    reports := [⟨1, 95000⟩, ⟨0, 90000⟩, ⟨1, 7⟩] }

/-- A tracker with retention `R` seconds, one source per given history and an empty queue. -/
def trackerWith (R : Nat) (histories : List DecoderStats) : Stats :=
  { maxIntervalSec := R, maxIntervalMs := R * 1000, numDecoders := histories.length,
    decoderStatsVec := histories, reports := [] }

/-- A socket whose first `send()` takes two bytes and every later one three. -/
def exampleWire : Wire :=
  { sendResult := fun k => if k = 0 then 2 else 3, sendCalls := 0, written := [] }

/-- A second report, from another station. -/
def exampleSecondReport : Report := { exampleReport with callsign := "K9XYZ".toList }

/-- An uploader with two queued reports on a transport that always connects, delivers the
first report (both sends complete, the reply is `OK`) and fails the first send of the
second one. -/
def exampleTwoReports : WSPRNet :=
  exampleUploader [exampleReport, exampleSecondReport]
    (scriptedNet (fun _ => .connected)
      (fun k => if k = 0 then 22 else if k = 1 then 336 else -1) (fun _ => "OK".toList))

/-- The uploader of `exampleTwoReports` after 2147483647 answered reports: `mCountSendsOK`
stands at `INT_MAX`. -/
def exampleSaturated : WSPRNet := { exampleTwoReports with mCountSendsOK := 2147483647 }

/-- The uploader of `exampleTwoReports` on a transport where every `closesocket` returns
`SOCKET_ERROR`. -/
def exampleCloseFails : WSPRNet :=
  { exampleTwoReports with
    net := { exampleTwoReports.net with closeStatus := fun _ => SOCKET_ERROR } }

/-- An uploader with one queued report on a transport where `socket()` succeeds and
`connect()` always fails. -/
def exampleRefused : WSPRNet :=
  exampleUploader [exampleReport]
    (scriptedNet (fun _ => .connectFailed) (fun _ => 0) (fun _ => []))

/-! ### Lemmas on the statistics tracker -/

theorem sub64_lt (a b : Nat) : sub64 a b < U64 := by
  unfold sub64
  exact Nat.mod_lt _ (by unfold U64; positivity)

theorem sub64_of_le {a b : Nat} (ha : a < U64) (hb : b ≤ a) : sub64 a b = a - b := by
  unfold sub64
  have hb' : b < U64 := lt_of_le_of_lt hb ha
  rw [Nat.mod_eq_of_lt ha, Nat.mod_eq_of_lt hb']
  have : a + (U64 - b) = (a - b) + U64 := by omega
  rw [this, Nat.add_mod_right, Nat.mod_eq_of_lt (by omega)]

theorem drain_spec (q : List StatsItem) :
    ∀ vec : List DecoderStats, (∀ e ∈ q, e.instanceId < vec.length) →
      ∃ vec', Stats.drain q vec = some vec' ∧ vec'.length = vec.length ∧
        ∀ s, s < vec.length → vec'[s]? = some ((vec[s]?).getD [] ++ queuedFor s q) := by
  induction q with
  | nil =>
    intro vec _
    refine ⟨vec, rfl, rfl, ?_⟩
    intro s hs
    simp [queuedFor, List.getElem?_eq_getElem hs]
  | cons e rest ih =>
    intro vec hv
    have he : e.instanceId < vec.length := hv e (List.mem_cons_self _ _)
    have hrest : ∀ x ∈ rest, x.instanceId < (vec.set e.instanceId
        (vec[e.instanceId] ++ [e.tsMs])).length := by
      intro x hx
      rw [List.length_set]
      exact hv x (List.mem_cons_of_mem _ hx)
    obtain ⟨vec', h1, h2, h3⟩ := ih _ hrest
    refine ⟨vec', ?_, ?_, ?_⟩
    · simp only [Stats.drain, List.getElem?_eq_getElem he]
      exact h1
    · rw [h2, List.length_set]
    · intro s hs
      have hs' : s < (vec.set e.instanceId (vec[e.instanceId] ++ [e.tsMs])).length := by
        rw [List.length_set]; exact hs
      rw [h3 s hs']
      by_cases hes : e.instanceId = s
      · subst hes
        have hg : (vec.set e.instanceId (vec[e.instanceId] ++ [e.tsMs]))[e.instanceId]? =
            some (vec[e.instanceId] ++ [e.tsMs]) := by
          rw [List.getElem?_set_self he]
        simp [queuedFor, List.getElem?_eq_getElem he, hg]
      · simp [queuedFor, List.getElem?_set_ne hes, hes]

theorem pruneFront_sorted_eq_filter (c : Nat) :
    ∀ l : List Nat, l.Sorted (· ≤ ·) → pruneFront c l = l.filter (fun t => decide (c < t)) := by
  intro l
  induction l with
  | nil => intro _; rfl
  | cons dv rest ih =>
    intro hs
    have hrest : rest.Sorted (· ≤ ·) := hs.of_cons
    by_cases hdv : dv ≤ c
    · have hn : ¬ c < dv := by omega
      simp [pruneFront, hdv, hn, ih hrest]
    · have hall : ∀ b ∈ rest, dv ≤ b := List.rel_of_sorted_cons hs
      have hlt : c < dv := by omega
      have hkeep : (dv :: rest).filter (fun t => decide (c < t)) = dv :: rest := by
        rw [List.filter_eq_self]
        intro a ha
        rcases List.mem_cons.mp ha with h | h
        · subst h; simpa using hlt
        · have := hall a h
          simp; omega
      rw [hkeep]
      simp [pruneFront, hdv]

/-- What one history looks like after `prune`: the sorted input without the entries that are
`<= cutoff`. -/
theorem pruneFront_sort (c : Nat) (l : List Nat) :
    pruneFront c (l.insertionSort (· ≤ ·)) =
      (l.insertionSort (· ≤ ·)).filter (fun t => decide (c < t)) :=
  pruneFront_sorted_eq_filter c _ (List.sorted_insertionSort (· ≤ ·) l)

theorem mem_pruneFront_sort (c : Nat) (l : List Nat) (t : Nat) :
    t ∈ pruneFront c (l.insertionSort (· ≤ ·)) ↔ t ∈ l ∧ c < t := by
  rw [pruneFront_sort, List.mem_filter, List.mem_insertionSort]
  simp

theorem sorted_pruneFront_sort (c : Nat) (l : List Nat) :
    (pruneFront c (l.insertionSort (· ≤ ·))).Sorted (· ≤ ·) := by
  rw [pruneFront_sort]
  exact (List.sorted_insertionSort (· ≤ ·) l).filter _

theorem countP_pruneFront_sort (c : Nat) (l : List Nat) (p : Nat → Bool) :
    (pruneFront c (l.insertionSort (· ≤ ·))).countP p =
      l.countP (fun t => p t && decide (c < t)) := by
  rw [pruneFront_sort, List.countP_filter]
  exact (List.perm_insertionSort (· ≤ ·) l).countP_eq _

/-- The state after `process`, history by history. -/
theorem process_spec (st : Stats) (mt : Nat)
    (hv : ∀ e ∈ st.reports, e.instanceId < st.decoderStatsVec.length) :
    ∃ st', st.process mt = some st' ∧
      st'.decoderStatsVec.length = st.decoderStatsVec.length ∧
      st'.maxIntervalMs = st.maxIntervalMs ∧ st'.reports = [] ∧
      ∀ s, s < st.decoderStatsVec.length →
        st'.decoderStatsVec[s]? = some (pruneFront (sub64 mt st.maxIntervalMs)
          (((st.decoderStatsVec[s]?).getD [] ++ queuedFor s st.reports).insertionSort (· ≤ ·))) := by
  obtain ⟨vec', h1, h2, h3⟩ := drain_spec st.reports st.decoderStatsVec hv
  refine ⟨Stats.prune { st with decoderStatsVec := vec', reports := [] } mt, ?_, ?_, rfl, rfl, ?_⟩
  · simp only [Stats.process, h1]
  · simp [Stats.prune, h2]
  · intro s hs
    simp [Stats.prune, List.getElem?_map, h3 s hs]

/-- Which timestamps a history holds after `process`: those that were stored or queued for
the source and are strictly above the cutoff `mt - maxIntervalMs`. -/
theorem mem_history_after_process (st : Stats) (mt : Nat)
    (hv : ∀ e ∈ st.reports, e.instanceId < st.decoderStatsVec.length) :
    ∃ st', st.process mt = some st' ∧
      ∀ s dec, st'.decoderStatsVec[s]? = some dec →
        ∀ t, t ∈ dec ↔
          (t ∈ (st.decoderStatsVec[s]?).getD [] ∨ t ∈ queuedFor s st.reports) ∧
            sub64 mt st.maxIntervalMs < t := by
  obtain ⟨st', h1, h2, -, -, h5⟩ := process_spec st mt hv
  refine ⟨st', h1, ?_⟩
  intro s dec hdec t
  have hs : s < st.decoderStatsVec.length := by
    rw [← h2]
    exact (List.getElem?_eq_some_iff.mp hdec).1
  rw [h5 s hs] at hdec
  rw [← Option.some.inj hdec, mem_pruneFront_sort, List.mem_append]

/-! ### Theorems on the statistics tracker -/

/-- C2.  For every tracker state whose `maxIntervalMs` is the retention window in
milliseconds, every queue of events with valid source ids and every 64-bit clock value `now`,
`process` returns, and afterwards every history is sorted ascending and holds no timestamp
below the cutoff `now - R*1000`, whether the difference is read as the unsigned 64-bit
difference of the code or as the integer difference. -/
theorem process_sorted_and_pruned (st : Stats) (now : Nat)
    (hms : st.maxIntervalMs = st.maxIntervalSec * 1000)
    (hnow : now < U64)
    (hv : ∀ e ∈ st.reports, e.instanceId < st.decoderStatsVec.length) :
    ∃ st', st.process now = some st' ∧
      ∀ dec ∈ st'.decoderStatsVec, dec.Sorted (· ≤ ·) ∧
        ∀ t ∈ dec, ¬ (t < sub64 now (st.maxIntervalSec * 1000)) ∧
          ¬ ((t : Int) < (now : Int) - (st.maxIntervalSec : Int) * 1000) := by
  obtain ⟨st', h1, h2, -, -, h5⟩ := process_spec st now hv
  refine ⟨st', h1, ?_⟩
  intro dec hdec
  obtain ⟨i, hi, hget⟩ := List.getElem_of_mem hdec
  have h6 := h5 i (by rw [← h2]; exact hi)
  rw [List.getElem?_eq_getElem hi, hget, hms] at h6
  have hd : dec = _ := Option.some.inj h6
  rw [hd]
  refine ⟨sorted_pruneFront_sort _ _, ?_⟩
  intro t ht
  have hlt := ((mem_pruneFront_sort _ _ t).mp ht).2
  refine ⟨by omega, ?_⟩
  by_cases hle : st.maxIntervalSec * 1000 ≤ now
  · rw [sub64_of_le hnow hle] at hlt
    omega
  · omega

/-- A worked run of pruning on a state with an unsorted history and three queued events. -/
theorem process_sorted_and_pruned_witness :
    let st : Stats :=
      { maxIntervalSec := 10, maxIntervalMs := 10000, numDecoders := 2,
        decoderStatsVec := [[99000, 91000, 80000], []],
        reports := [⟨1, 95000⟩, ⟨0, 90000⟩, ⟨1, 7⟩] }
    (st.maxIntervalMs = st.maxIntervalSec * 1000 ∧ 100000 < U64 ∧
      ∀ e ∈ st.reports, e.instanceId < st.decoderStatsVec.length) ∧
    ∃ st', st.process 100000 = some st' ∧
      ∀ dec ∈ st'.decoderStatsVec, dec.Sorted (· ≤ ·) ∧
        ∀ t ∈ dec, ¬ (t < sub64 100000 (st.maxIntervalSec * 1000)) ∧
          ¬ ((t : Int) < (100000 : Int) - (st.maxIntervalSec : Int) * 1000) :=
  ⟨⟨by decide, by decide, by decide⟩,
   process_sorted_and_pruned
    { maxIntervalSec := 10, maxIntervalMs := 10000, numDecoders := 2,
      decoderStatsVec := [[99000, 91000, 80000], []],
      reports := [⟨1, 95000⟩, ⟨0, 90000⟩, ⟨1, 7⟩] } 100000
    (by decide) (by decide) (by decide)⟩

/-- C3 at the failing input.  Retention `R = 10` s, clock `now = 100000` ms, a history holding
the single timestamp `90000 = now - R*1000`.  The timestamp is not older than the cutoff and
`getCounts 10` counts it before `process`; `process` erases it (`prune` tests
`dv <= mt - maxIntervalMs`), and `getCounts 10` no longer counts it. -/
theorem process_erases_timestamp_on_cutoff :
    let st : Stats :=
      { maxIntervalSec := 10, maxIntervalMs := 10000, numDecoders := 1,
        decoderStatsVec := [[90000]], reports := [] }
    100000 - 10 * 1000 ≤ 90000 ∧
    st.getCounts 10 100000 = [1] ∧
    (st.process 100000).map (fun st' => st'.decoderStatsVec) = some [[]] ∧
    (st.process 100000).map (fun st' => st'.getCounts 10 100000) = some [0] := by
  decide

/-! ### Lemmas and theorems on the uploader -/

theorem sendMessageWithRetryLoop_frame (message : Str) :
    ∀ (fuel tries : Nat) (net : Net),
      (sendMessageWithRetryLoop message fuel tries net).2.readCalls = net.readCalls ∧
      (sendMessageWithRetryLoop message fuel tries net).2.readMessageResult =
        net.readMessageResult ∧
      (sendMessageWithRetryLoop message fuel tries net).2.sendMessageResult =
        net.sendMessageResult ∧
      (sendMessageWithRetryLoop message fuel tries net).2.connectCalls = net.connectCalls ∧
      (sendMessageWithRetryLoop message fuel tries net).2.closeCalls = net.closeCalls ∧
      (sendMessageWithRetryLoop message fuel tries net).2.openSockets = net.openSockets := by
  intro fuel
  induction fuel with
  | zero => intro tries net; simp [sendMessageWithRetryLoop]
  | succ fuel ih =>
    intro tries net
    unfold sendMessageWithRetryLoop
    dsimp only
    split_ifs with ht hc he
    · simp [Net.sendMessage]
    · simp [Net.sendMessage]
    · have := ih (tries + 1) (net.sendMessage message).2
      simpa [Net.sendMessage] using this
    · simp

/-- Three iterations are all the `while (tries <= 2)` loop can make: more fuel changes
nothing. -/
theorem sendMessageWithRetryLoop_fuel (message : Str) (extra : Nat) (net : Net) :
    sendMessageWithRetryLoop message (3 + extra) 0 net = sendMessageWithRetry message net := by
  have h : 3 + extra = extra + 1 + 1 + 1 := by omega
  rw [h]
  simp only [sendMessageWithRetry, sendMessageWithRetryLoop]
  cases extra <;> simp [sendMessageWithRetryLoop]

theorem toSizeT_eq_iff (r : Int) (len : Nat) (hlen : len < 2 ^ 63)
    (hr : -(2 : Int) ^ 31 ≤ r ∧ r < 2 ^ 31) : toSizeT r = len ↔ r = (len : Int) := by
  unfold toSizeT
  constructor
  · intro h
    have h2 : (r % 2 ^ 64) = (len : Int) := by
      have hnn : 0 ≤ r % 2 ^ 64 := Int.emod_nonneg _ (by norm_num)
      omega
    omega
  · intro h
    subst h
    omega

theorem toSizeT_SOCKET_ERROR (len : Nat) (hlen : len < 2 ^ 63) :
    toSizeT SOCKET_ERROR ≠ len := by
  unfold toSizeT SOCKET_ERROR
  omega

/-- The transport after `n` calls of `sendMessage` with the same message. -/
theorem sendMessageWithRetry_eq (message : Str) (net : Net) :
    sendMessageWithRetry message net =
      if toSizeT (net.sendMessageResult net.sendLog.length) = message.length then
        (true, { net with sendLog := net.sendLog ++ List.replicate 1 message,
                           trace := net.trace ++ List.replicate 1 (Event.send message) })
      else if net.sendMessageResult net.sendLog.length = SOCKET_ERROR then
        (false, { net with sendLog := net.sendLog ++ List.replicate 1 message,
                           trace := net.trace ++ List.replicate 1 (Event.send message) })
      else if toSizeT (net.sendMessageResult (net.sendLog.length + 1)) = message.length then
        (true, { net with sendLog := net.sendLog ++ List.replicate 2 message,
                           trace := net.trace ++ List.replicate 2 (Event.send message) })
      else if net.sendMessageResult (net.sendLog.length + 1) = SOCKET_ERROR then
        (false, { net with sendLog := net.sendLog ++ List.replicate 2 message,
                           trace := net.trace ++ List.replicate 2 (Event.send message) })
      else if toSizeT (net.sendMessageResult (net.sendLog.length + 2)) = message.length then
        (true, { net with sendLog := net.sendLog ++ List.replicate 3 message,
                           trace := net.trace ++ List.replicate 3 (Event.send message) })
      else
        (false, { net with sendLog := net.sendLog ++ List.replicate 3 message,
                           trace := net.trace ++ List.replicate 3 (Event.send message) }) := by
  simp only [sendMessageWithRetry, sendMessageWithRetryLoop, Net.sendMessage,
    List.length_append, List.length_singleton, List.append_assoc, List.singleton_append,
    Nat.add_zero, Nat.zero_add, Nat.reduceLeDiff, Nat.reduceAdd, if_true, Nat.add_assoc,
    List.replicate, Nat.zero_le, Nat.one_le_ofNat, le_refl, List.length_cons, List.length_nil]
  split_ifs <;> simp_all

/-- C9.  For every message (shorter than `2^63` bytes) and every transport whose
`sendMessage` results are C `int`s, `sendMessageWithRetry` makes `n` calls of `sendMessage`
with `1 <= n <= 3`, all with the same message; it returns `true` exactly when one of these
calls returned the message length; and a call that returns `SOCKET_ERROR` is the last one
and makes the result `false`. -/
theorem sendMessageWithRetry_attempts (message : Str) (net : Net)
    (hlen : message.length < 2 ^ 63)
    (hint : ∀ k, -(2 : Int) ^ 31 ≤ net.sendMessageResult k ∧ net.sendMessageResult k < 2 ^ 31) :
    ∃ n, 1 ≤ n ∧ n ≤ 3 ∧
      (sendMessageWithRetry message net).2.sendLog = net.sendLog ++ List.replicate n message ∧
      ((sendMessageWithRetry message net).1 = true ↔
        ∃ i, i < n ∧ net.sendMessageResult (net.sendLog.length + i) = (message.length : Int)) ∧
      (∀ i, i < n → net.sendMessageResult (net.sendLog.length + i) = SOCKET_ERROR →
        (sendMessageWithRetry message net).1 = false ∧ i + 1 = n) := by
  have hne : SOCKET_ERROR ≠ (message.length : Int) := by unfold SOCKET_ERROR; omega
  have hc : ∀ k, toSizeT (net.sendMessageResult k) = message.length ↔
      net.sendMessageResult k = (message.length : Int) :=
    fun k => toSizeT_eq_iff _ _ hlen (hint k)
  rw [sendMessageWithRetry_eq]
  simp only [hc]
  by_cases c0 : net.sendMessageResult net.sendLog.length = (message.length : Int)
  · rw [if_pos c0]
    refine ⟨1, le_refl _, by omega, rfl, ?_, ?_⟩
    · exact ⟨fun _ => ⟨0, by omega, c0⟩, fun _ => rfl⟩
    · intro i hi he
      have : i = 0 := by omega
      subst this
      exact absurd (he.symm.trans c0) hne
  rw [if_neg c0]
  by_cases e0 : net.sendMessageResult net.sendLog.length = SOCKET_ERROR
  · rw [if_pos e0]
    refine ⟨1, le_refl _, by omega, rfl, ?_, ?_⟩
    · refine ⟨fun h => absurd h (by simp), ?_⟩
      rintro ⟨i, hi, h⟩
      have : i = 0 := by omega
      subst this
      exact absurd h c0
    · intro i hi _
      exact ⟨rfl, by omega⟩
  rw [if_neg e0]
  by_cases c1 : net.sendMessageResult (net.sendLog.length + 1) = (message.length : Int)
  · rw [if_pos c1]
    refine ⟨2, by omega, by omega, rfl, ?_, ?_⟩
    · exact ⟨fun _ => ⟨1, by omega, c1⟩, fun _ => rfl⟩
    · intro i hi he
      have : i = 0 ∨ i = 1 := by omega
      rcases this with h | h <;> subst h
      · exact absurd he e0
      · exact absurd (he.symm.trans c1) hne
  rw [if_neg c1]
  by_cases e1 : net.sendMessageResult (net.sendLog.length + 1) = SOCKET_ERROR
  · rw [if_pos e1]
    refine ⟨2, by omega, by omega, rfl, ?_, ?_⟩
    · refine ⟨fun h => absurd h (by simp), ?_⟩
      rintro ⟨i, hi, h⟩
      have : i = 0 ∨ i = 1 := by omega
      rcases this with h' | h' <;> subst h'
      · exact absurd h c0
      · exact absurd h c1
    · intro i hi he
      have : i = 0 ∨ i = 1 := by omega
      rcases this with h | h <;> subst h
      · exact absurd he e0
      · exact ⟨rfl, rfl⟩
  rw [if_neg e1]
  by_cases c2 : net.sendMessageResult (net.sendLog.length + 2) = (message.length : Int)
  · rw [if_pos c2]
    refine ⟨3, by omega, by omega, rfl, ?_, ?_⟩
    · exact ⟨fun _ => ⟨2, by omega, c2⟩, fun _ => rfl⟩
    · intro i hi he
      have : i = 0 ∨ i = 1 ∨ i = 2 := by omega
      rcases this with h | h | h <;> subst h
      · exact absurd he e0
      · exact absurd he e1
      · exact absurd (he.symm.trans c2) hne
  · rw [if_neg c2]
    refine ⟨3, by omega, by omega, rfl, ?_, ?_⟩
    · refine ⟨fun h => absurd h (by simp), ?_⟩
      rintro ⟨i, hi, h⟩
      have : i = 0 ∨ i = 1 ∨ i = 2 := by omega
      rcases this with h' | h' | h' <;> subst h'
      · exact absurd h c0
      · exact absurd h c1
      · exact absurd h c2
    · intro i hi he
      have : i = 0 ∨ i = 1 ∨ i = 2 := by omega
      rcases this with h | h | h <;> subst h
      · exact absurd he e0
      · exact absurd he e1
      · exact ⟨rfl, rfl⟩

theorem readResponseLoop_eq (net : Net) :
    readResponseLoop 4 0 [] net =
      if net.readMessageResult net.readCalls ≠ [] then
        (1, net.readMessageResult net.readCalls,
          { net with readCalls := net.readCalls + 1,
                     trace := net.trace ++ List.replicate 1 Event.read })
      else if net.readMessageResult (net.readCalls + 1) ≠ [] then
        (2, net.readMessageResult (net.readCalls + 1),
          { net with readCalls := net.readCalls + 2,
                     trace := net.trace ++ List.replicate 2 Event.read })
      else if net.readMessageResult (net.readCalls + 2) ≠ [] then
        (3, net.readMessageResult (net.readCalls + 2),
          { net with readCalls := net.readCalls + 3,
                     trace := net.trace ++ List.replicate 3 Event.read })
      else
        (4, net.readMessageResult (net.readCalls + 3),
          { net with readCalls := net.readCalls + 4,
                     trace := net.trace ++ List.replicate 4 Event.read }) := by
  simp only [readResponseLoop, Net.readMessage, List.nil_append, Nat.zero_add, Nat.reduceAdd,
    Nat.add_assoc, Nat.reduceLeDiff, decide_True, decide_False, Bool.and_true, Bool.and_false,
    List.isEmpty_iff, ne_eq, ite_not, Nat.one_le_ofNat, le_refl, Bool.false_eq_true, if_false]
  split_ifs <;> simp_all

/-- More fuel than four iterations changes nothing: the `do ... while` loop has ended. -/
theorem readResponseLoop_fuel (extra : Nat) (net : Net) :
    readResponseLoop (4 + extra) 0 [] net = readResponseLoop 4 0 [] net := by
  have h : 4 + extra = extra + 1 + 1 + 1 + 1 := by omega
  rw [h]
  simp only [readResponseLoop, Net.readMessage, List.nil_append, Nat.zero_add, Nat.reduceAdd,
    Nat.add_assoc, Nat.reduceLeDiff, decide_True, decide_False, Bool.and_true, Bool.and_false,
    Nat.one_le_ofNat, le_refl, Bool.false_eq_true, if_false]

/-- C10.  Once both sends have succeeded, `sendReport` calls `readMessage` `k` times, where
`k` is the position (counted from 1) of the first non-empty result when that is among the
first four reads, and 4 when the first four reads are all empty; it returns `true` exactly
when one of these `k` reads was non-empty, and `false` after four empty reads. -/
theorem sendReport_response_reads (pid : ProgramId) (operatorGrid : Str) (report : Report)
    (net : Net)
    (h1 : (sendMessageWithRetry requestText net).1 = true)
    (h2 : (sendMessageWithRetry (allText pid operatorGrid report)
      (sendMessageWithRetry requestText net).2).1 = true) :
    (∀ j, j < 4 → (∀ i, i < j → net.readMessageResult (net.readCalls + i) = []) →
        net.readMessageResult (net.readCalls + j) ≠ [] →
        (sendReport pid operatorGrid report net).2.readCalls = net.readCalls + (j + 1) ∧
        (sendReport pid operatorGrid report net).1 = true) ∧
    ((∀ i, i < 4 → net.readMessageResult (net.readCalls + i) = []) →
        (sendReport pid operatorGrid report net).2.readCalls = net.readCalls + 4 ∧
        (sendReport pid operatorGrid report net).1 = false) ∧
    (net.readCalls + 1 ≤ (sendReport pid operatorGrid report net).2.readCalls ∧
      (sendReport pid operatorGrid report net).2.readCalls ≤ net.readCalls + 4) ∧
    ((sendReport pid operatorGrid report net).1 = true ↔
      ∃ i, net.readCalls + i < (sendReport pid operatorGrid report net).2.readCalls ∧
        net.readMessageResult (net.readCalls + i) ≠ []) := by
  obtain ⟨f1, f2, -, -, -, -⟩ := sendMessageWithRetryLoop_frame requestText 3 0 net
  obtain ⟨g1, g2, -, -, -, -⟩ := sendMessageWithRetryLoop_frame (allText pid operatorGrid report)
    3 0 (sendMessageWithRetry requestText net).2
  have hc : (sendMessageWithRetry (allText pid operatorGrid report)
      (sendMessageWithRetry requestText net).2).2.readCalls = net.readCalls := by
    unfold sendMessageWithRetry at *
    rw [g1, f1]
  have hr : (sendMessageWithRetry (allText pid operatorGrid report)
      (sendMessageWithRetry requestText net).2).2.readMessageResult = net.readMessageResult := by
    unfold sendMessageWithRetry at *
    rw [g2, f2]
  have hs : sendReport pid operatorGrid report net =
      (if (readResponseLoop 4 0 [] (sendMessageWithRetry (allText pid operatorGrid report)
          (sendMessageWithRetry requestText net).2).2).2.1.length ≠ 0
        then (true, (readResponseLoop 4 0 [] (sendMessageWithRetry
          (allText pid operatorGrid report) (sendMessageWithRetry requestText net).2).2).2.2)
        else (false, (readResponseLoop 4 0 [] (sendMessageWithRetry
          (allText pid operatorGrid report) (sendMessageWithRetry requestText net).2).2).2.2)) := by
    simp only [sendReport, h1, h2, Bool.not_true, Bool.false_eq_true, if_false]
  rw [hs, readResponseLoop_eq]
  generalize (sendMessageWithRetry (allText pid operatorGrid report)
      (sendMessageWithRetry requestText net).2).2 = n2 at hc hr ⊢
  rw [hc, hr]
  have len0 : ∀ l : Str, l.length ≠ 0 ↔ l ≠ [] := fun l => by simp
  by_cases r0 : net.readMessageResult net.readCalls ≠ []
  · rw [if_pos r0, if_pos ((len0 _).mpr r0)]
    dsimp only
    refine ⟨?_, ?_, ⟨le_refl _, by omega⟩, ?_⟩
    · intro j hj hprev hcur
      have : j = 0 := by
        by_contra hne
        exact r0 (hprev 0 (by omega))
      subst this
      exact ⟨rfl, rfl⟩
    · intro hall
      exact absurd (hall 0 (by omega)) r0
    · exact ⟨fun _ => ⟨0, by omega, r0⟩, fun _ => rfl⟩
  rw [if_neg r0]
  by_cases r1 : net.readMessageResult (net.readCalls + 1) ≠ []
  · rw [if_pos r1, if_pos ((len0 _).mpr r1)]
    dsimp only
    refine ⟨?_, ?_, ⟨by omega, by omega⟩, ?_⟩
    · intro j hj hprev hcur
      have : j = 1 := by
        by_contra hne
        rcases Nat.lt_or_gt_of_ne hne with h | h
        · have : j = 0 := by omega
          subst this
          exact r0 hcur
        · exact r1 (hprev 1 h)
      subst this
      exact ⟨rfl, rfl⟩
    · intro hall
      exact absurd (hall 1 (by omega)) r1
    · exact ⟨fun _ => ⟨1, by omega, r1⟩, fun _ => rfl⟩
  rw [if_neg r1]
  by_cases r2 : net.readMessageResult (net.readCalls + 2) ≠ []
  · rw [if_pos r2, if_pos ((len0 _).mpr r2)]
    dsimp only
    refine ⟨?_, ?_, ⟨by omega, by omega⟩, ?_⟩
    · intro j hj hprev hcur
      have : j = 2 := by
        by_contra hne
        rcases Nat.lt_or_gt_of_ne hne with h | h
        · have : j = 0 ∨ j = 1 := by omega
          rcases this with h' | h' <;> subst h'
          · exact r0 hcur
          · exact r1 hcur
        · exact r2 (hprev 2 h)
      subst this
      exact ⟨rfl, rfl⟩
    · intro hall
      exact absurd (hall 2 (by omega)) r2
    · exact ⟨fun _ => ⟨2, by omega, r2⟩, fun _ => rfl⟩
  rw [if_neg r2]
  by_cases r3 : net.readMessageResult (net.readCalls + 3) ≠ []
  · rw [if_pos ((len0 _).mpr r3)]
    dsimp only
    refine ⟨?_, ?_, ⟨by omega, by omega⟩, ?_⟩
    · intro j hj hprev hcur
      have : j = 3 := by
        by_contra hne
        have : j = 0 ∨ j = 1 ∨ j = 2 := by omega
        rcases this with h' | h' | h' <;> subst h'
        · exact r0 hcur
        · exact r1 hcur
        · exact r2 hcur
      subst this
      exact ⟨rfl, rfl⟩
    · intro hall
      exact absurd (hall 3 (by omega)) r3
    · exact ⟨fun _ => ⟨3, by omega, r3⟩, fun _ => rfl⟩
  · have e3 : net.readMessageResult (net.readCalls + 3) = [] := not_not.mp r3
    rw [if_neg (by rw [e3]; simp)]
    dsimp only
    refine ⟨?_, ?_, ⟨by omega, by omega⟩, ?_⟩
    · intro j hj hprev hcur
      have : j = 0 ∨ j = 1 ∨ j = 2 ∨ j = 3 := by omega
      rcases this with h' | h' | h' | h' <;> subst h'
      · exact absurd hcur r0
      · exact absurd hcur r1
      · exact absurd hcur r2
      · exact absurd hcur r3
    · intro _
      exact ⟨rfl, rfl⟩
    · refine ⟨fun h => absurd h (by simp), ?_⟩
      rintro ⟨i, hi, h⟩
      have : i = 0 ∨ i = 1 ∨ i = 2 ∨ i = 3 := by omega
      rcases this with h' | h' | h' | h' <;> subst h'
      · exact absurd h r0
      · exact absurd h r1
      · exact absurd h r2
      · exact absurd h r3

/-- A worked run of the send retry: the first attempt reports a short count, the second one
the full length of the five-byte message. -/
theorem sendMessageWithRetry_attempts_witness :
    (("hello".toList.length < 2 ^ 63) ∧
      ∀ k, -(2 : Int) ^ 31 ≤
          (scriptedNet (fun _ => .connected) (fun k => if k = 0 then 3 else 5)
            (fun _ => [])).sendMessageResult k ∧
        (scriptedNet (fun _ => .connected) (fun k => if k = 0 then 3 else 5)
            (fun _ => [])).sendMessageResult k < 2 ^ 31) ∧
    ∃ n, 1 ≤ n ∧ n ≤ 3 ∧
      (sendMessageWithRetry "hello".toList (scriptedNet (fun _ => .connected)
          (fun k => if k = 0 then 3 else 5) (fun _ => []))).2.sendLog =
        (scriptedNet (fun _ => .connected) (fun k => if k = 0 then 3 else 5)
          (fun _ => [])).sendLog ++ List.replicate n "hello".toList ∧
      ((sendMessageWithRetry "hello".toList (scriptedNet (fun _ => .connected)
          (fun k => if k = 0 then 3 else 5) (fun _ => []))).1 = true ↔
        ∃ i, i < n ∧ (scriptedNet (fun _ => .connected) (fun k => if k = 0 then 3 else 5)
          (fun _ => [])).sendMessageResult
            ((scriptedNet (fun _ => .connected) (fun k => if k = 0 then 3 else 5)
              (fun _ => [])).sendLog.length + i) = (("hello".toList.length : Nat) : Int)) ∧
      (∀ i, i < n → (scriptedNet (fun _ => .connected) (fun k => if k = 0 then 3 else 5)
          (fun _ => [])).sendMessageResult
            ((scriptedNet (fun _ => .connected) (fun k => if k = 0 then 3 else 5)
              (fun _ => [])).sendLog.length + i) = SOCKET_ERROR →
        (sendMessageWithRetry "hello".toList (scriptedNet (fun _ => .connected)
          (fun k => if k = 0 then 3 else 5) (fun _ => []))).1 = false ∧ i + 1 = n) :=
  have hb : ∀ k, -(2 : Int) ^ 31 ≤
      (scriptedNet (fun _ => .connected) (fun k => if k = 0 then 3 else 5)
        (fun _ => [])).sendMessageResult k ∧
      (scriptedNet (fun _ => .connected) (fun k => if k = 0 then 3 else 5)
        (fun _ => [])).sendMessageResult k < 2 ^ 31 := by
    intro k
    simp only [scriptedNet]
    split_ifs <;> norm_num
  ⟨⟨by decide, hb⟩, sendMessageWithRetry_attempts "hello".toList _ (by decide) hb⟩

/-- A worked run of the response loop: both sends succeed at the first attempt, the first
read is empty and the second one is not; two reads are made and the result is `true`. -/
theorem sendReport_response_reads_witness :
    ((sendMessageWithRetry requestText (scriptedNet (fun _ => .connected)
        (fun k => if k = 0 then 22 else 336) (fun k => if k = 1 then "OK".toList else []))).1
        = true ∧
      (sendMessageWithRetry (allText examplePid "FN20".toList exampleReport)
        (sendMessageWithRetry requestText (scriptedNet (fun _ => .connected)
          (fun k => if k = 0 then 22 else 336)
          (fun k => if k = 1 then "OK".toList else []))).2).1 = true) ∧
    ((sendReport examplePid "FN20".toList exampleReport (scriptedNet (fun _ => .connected)
        (fun k => if k = 0 then 22 else 336)
        (fun k => if k = 1 then "OK".toList else []))).2.readCalls = 0 + (1 + 1) ∧
      (sendReport examplePid "FN20".toList exampleReport (scriptedNet (fun _ => .connected)
        (fun k => if k = 0 then 22 else 336)
        (fun k => if k = 1 then "OK".toList else []))).1 = true) :=
  ⟨⟨by decide, by decide⟩,
   (sendReport_response_reads examplePid "FN20".toList exampleReport
      (scriptedNet (fun _ => .connected) (fun k => if k = 0 then 22 else 336)
        (fun k => if k = 1 then "OK".toList else []))
      (by decide) (by decide)).1 1 (by decide)
      (by intro i hi; have : i = 0 := by omega
          subst this; decide)
      (by decide)⟩

theorem connectSocket_of_not_connected (net : Net)
    (h : net.connectOutcome net.connectCalls ≠ ConnectOutcome.connected) :
    net.connectSocket.1 = false ∧
      net.connectSocket.2.connectCalls = net.connectCalls + 1 ∧
      net.connectSocket.2.connectOutcome = net.connectOutcome := by
  unfold Net.connectSocket
  cases hc : net.connectOutcome net.connectCalls with
  | socketFailed => exact ⟨rfl, rfl, rfl⟩
  | connectFailed => exact ⟨rfl, rfl, rfl⟩
  | connected => exact absurd hc h

theorem drainIteration_of_not_connected (pid : ProgramId) (w : WSPRNet)
    (hq : w.mReports ≠ [])
    (h : w.net.connectOutcome w.net.connectCalls ≠ ConnectOutcome.connected) :
    (w.drainIteration pid).mReports = w.mReports ∧
      (w.drainIteration pid).mCountSendsErrored = w.mCountSendsErrored ∧
      (w.drainIteration pid).mCountSendsOK = w.mCountSendsOK ∧
      (w.drainIteration pid).net.connectCalls = w.net.connectCalls + 1 ∧
      (w.drainIteration pid).net.connectOutcome = w.net.connectOutcome := by
  obtain ⟨h1, h2, h3⟩ := connectSocket_of_not_connected w.net h
  obtain ⟨report, rest, hw⟩ := List.exists_cons_of_ne_nil hq
  have hd : w.drainIteration pid = { w with net := w.net.connectSocket.2 } := by
    unfold WSPRNet.drainIteration
    rw [hw]
    simp only [h1, Bool.not_false, if_true]
  rw [hd]
  exact ⟨rfl, rfl, rfl, h2, h3⟩

theorem iterate_drainIteration_never_connected (pid : ProgramId) :
    ∀ (k : Nat) (w : WSPRNet), w.mReports ≠ [] →
      (∀ i, w.net.connectOutcome i ≠ ConnectOutcome.connected) →
      ((WSPRNet.drainIteration pid)^[k] w).mReports = w.mReports ∧
      ((WSPRNet.drainIteration pid)^[k] w).mCountSendsErrored = w.mCountSendsErrored ∧
      ((WSPRNet.drainIteration pid)^[k] w).mCountSendsOK = w.mCountSendsOK ∧
      ((WSPRNet.drainIteration pid)^[k] w).net.connectCalls = w.net.connectCalls + k ∧
      WSPRNet.drainLoop pid k w = none := by
  intro k
  induction k with
  | zero =>
    intro w hq _
    refine ⟨rfl, rfl, rfl, rfl, ?_⟩
    obtain ⟨report, rest, hw⟩ := List.exists_cons_of_ne_nil hq
    simp [WSPRNet.drainLoop, hw]
  | succ k ih =>
    intro w hq hn
    obtain ⟨h1, h2, h3, h4, h5⟩ := drainIteration_of_not_connected pid w hq (hn _)
    have hq' : (w.drainIteration pid).mReports ≠ [] := by rw [h1]; exact hq
    have hn' : ∀ i, (w.drainIteration pid).net.connectOutcome i ≠ ConnectOutcome.connected := by
      rw [h5]; exact hn
    obtain ⟨i1, i2, i3, i4, i5⟩ := ih (w.drainIteration pid) hq' hn'
    rw [Function.iterate_succ_apply]
    refine ⟨by rw [i1, h1], by rw [i2, h2], by rw [i3, h3], by rw [i4, h4]; omega, ?_⟩
    obtain ⟨report, rest, hw⟩ := List.exists_cons_of_ne_nil hq
    simp only [WSPRNet.drainLoop, hw, List.isEmpty_cons, Bool.false_eq_true, if_false]
    exact i5

/-- C8 (as amended).  With a non-empty queue, an iteration of the drain loop in which
`connectSocket` fails leaves the queue (its head included), `mCountSendsErrored` and
`mCountSendsOK` as they were and only counts one more connection attempt; so with a transport
that never accepts a connection the loop does not end: after any number of iterations the
queue and both counters are unchanged. -/
theorem drain_connect_failure_keeps_report (pid : ProgramId) (w : WSPRNet)
    (hq : w.mReports ≠ []) :
    (w.net.connectOutcome w.net.connectCalls ≠ ConnectOutcome.connected →
      (w.drainIteration pid).mReports = w.mReports ∧
      (w.drainIteration pid).mCountSendsErrored = w.mCountSendsErrored ∧
      (w.drainIteration pid).mCountSendsOK = w.mCountSendsOK ∧
      (w.drainIteration pid).net.connectCalls = w.net.connectCalls + 1) ∧
    ((∀ i, w.net.connectOutcome i ≠ ConnectOutcome.connected) →
      ∀ k, WSPRNet.drainLoop pid k w = none ∧
        ((WSPRNet.drainIteration pid)^[k] w).mReports = w.mReports ∧
        ((WSPRNet.drainIteration pid)^[k] w).mCountSendsErrored = w.mCountSendsErrored ∧
        ((WSPRNet.drainIteration pid)^[k] w).mCountSendsOK = w.mCountSendsOK ∧
        ((WSPRNet.drainIteration pid)^[k] w).net.connectCalls = w.net.connectCalls + k) := by
  constructor
  · intro h
    obtain ⟨h1, h2, h3, h4, -⟩ := drainIteration_of_not_connected pid w hq h
    exact ⟨h1, h2, h3, h4⟩
  · intro hn k
    obtain ⟨i1, i2, i3, i4, i5⟩ := iterate_drainIteration_never_connected pid k w hq hn
    exact ⟨i5, i1, i2, i3, i4⟩

/-- A worked run of the drain loop with one queued report and a transport on which
`connect()` always fails. -/
theorem drain_connect_failure_keeps_report_witness :
    ((exampleUploader [exampleReport]
        (scriptedNet (fun _ => .connectFailed) (fun _ => 0) (fun _ => []))).mReports ≠ [] ∧
      ∀ i, (exampleUploader [exampleReport]
        (scriptedNet (fun _ => .connectFailed) (fun _ => 0) (fun _ => []))).net.connectOutcome i
          ≠ ConnectOutcome.connected) ∧
    ((WSPRNet.drainIteration examplePid (exampleUploader [exampleReport]
        (scriptedNet (fun _ => .connectFailed) (fun _ => 0) (fun _ => [])))).mReports =
        [exampleReport] ∧
      ∀ k, WSPRNet.drainLoop examplePid k (exampleUploader [exampleReport]
        (scriptedNet (fun _ => .connectFailed) (fun _ => 0) (fun _ => []))) = none) :=
  ⟨⟨by decide, fun _ => by simp [exampleUploader, scriptedNet]⟩,
   ((drain_connect_failure_keeps_report examplePid (exampleUploader [exampleReport]
      (scriptedNet (fun _ => .connectFailed) (fun _ => 0) (fun _ => []))) (by decide)).1
      (by decide)).1,
   fun k => (((drain_connect_failure_keeps_report examplePid (exampleUploader [exampleReport]
      (scriptedNet (fun _ => .connectFailed) (fun _ => 0) (fun _ => []))) (by decide)).2
      (fun _ => by simp [exampleUploader, scriptedNet])) k).1⟩

/-- C8 fails as stated.  One report is queued and `connect()` fails: after the iteration the
report is still at the head of the queue (the claim says it was removed) and
`mCountSendsErrored` is still 0 (the claim says it went up by 1). -/
theorem drain_connect_failure_counterexample :
    (WSPRNet.drainIteration examplePid (exampleUploader [exampleReport]
        (scriptedNet (fun _ => .connectFailed) (fun _ => 0) (fun _ => [])))).mReports =
        [exampleReport] ∧
    (WSPRNet.drainIteration examplePid (exampleUploader [exampleReport]
        (scriptedNet (fun _ => .connectFailed) (fun _ => 0) (fun _ => [])))).mReports ≠ [] ∧
    (WSPRNet.drainIteration examplePid (exampleUploader [exampleReport]
        (scriptedNet (fun _ => .connectFailed) (fun _ => 0)
          (fun _ => [])))).mCountSendsErrored = 0 ∧
    (WSPRNet.drainIteration examplePid (exampleUploader [exampleReport]
        (scriptedNet (fun _ => .connectFailed) (fun _ => 0)
          (fun _ => [])))).mCountSendsErrored ≠
      (exampleUploader [exampleReport]
        (scriptedNet (fun _ => .connectFailed) (fun _ => 0)
          (fun _ => []))).mCountSendsErrored + 1 := by
  decide

/-- C6 at the failing input.  For the receive frequency 28126100 Hz the `float` quotient is
28.1261005401611328125, which `std::fixed << std::setprecision(6)` writes as `28.126101`; the
exact value with six decimals is `28.126100`.  The two frequencies of the specification's
scenario come out exact.  The last two parts read the `rqrg` and `tqrg` values off the body
of a report with both frequencies at 28126100 Hz. -/
theorem mhzText_float_precision :
    mhzText 28126100 = "28.126101".toList ∧
    exactMhzText 28126100 = "28.126100".toList ∧
    mhzText 28126100 ≠ exactMhzText 28126100 ∧
    (Flt.ofNat 28126100).div (Flt.ofNat 1000000) = ⟨false, 14746177, -19⟩ ∧
    mhzText 7040125 = "7.040125".toList ∧
    mhzText 7040100 = "7.040100".toList ∧
    (formPairs (contentText examplePid "FN20".toList
      { exampleReport with recvfreq := 28126100, freq := 28126100 })).get? 3 =
        some ("rqrg".toList, "28.126101".toList) ∧
    (formPairs (contentText examplePid "FN20".toList
      { exampleReport with recvfreq := 28126100, freq := 28126100 })).get? 11 =
        some ("tqrg".toList, "28.126101".toList) := by
  decide

theorem civilFromDays_bounds (days : Nat) (h1 : 10957 ≤ days) (h2 : days < 47482) :
    2000 ≤ (civilFromDays days).1 ∧ (civilFromDays days).1 ≤ 2099 ∧
    1 ≤ (civilFromDays days).2.1 ∧ (civilFromDays days).2.1 ≤ 12 ∧
    1 ≤ (civilFromDays days).2.2 ∧ (civilFromDays days).2.2 ≤ 31 := by
  simp only [civilFromDays]
  generalize hz : (days + 719468) % 146097 = doe
  generalize he : (days + 719468) / 146097 = era
  have hera : (era = 4 ∧ 146037 ≤ doe ∧ doe ≤ 146096) ∨ (era = 5 ∧ doe < 36465) := by omega
  generalize ht : doe - doe / 1460 + doe / 36524 - doe / 146096 = t
  generalize hy : t / 365 = yoe
  have hyoe : (era = 4 ∧ yoe = 399) ∨ (era = 5 ∧ yoe ≤ 99) := by omega
  generalize hd : doe - (365 * yoe + yoe / 4 - yoe / 100) = doy
  have hdoy : doy ≤ 365 ∧ (era = 4 → 306 ≤ doy) ∧ (yoe = 99 → doy ≤ 305) := by
    rcases hera with ⟨e4, d1, d2⟩ | ⟨e5, d1⟩
    · omega
    · have hq : doe / 1460 ≤ 24 := by omega
      have hy99 : yoe ≤ 99 := by omega
      omega
  generalize hm : (5 * doy + 2) / 153 = mp
  have hmp : mp ≤ 11 ∧ (era = 4 → 10 ≤ mp) ∧ (yoe = 99 → mp ≤ 9) := by omega
  have hday : 1 ≤ doy - (153 * mp + 2) / 5 + 1 ∧ doy - (153 * mp + 2) / 5 + 1 ≤ 31 := by
    omega
  split_ifs <;> omega

theorem setw2_of_lt_100 : ∀ n : Nat, n < 100 → setw2 (n : Int) = twoDigits n := by
  decide

theorem twoDigits_isDigit (n : Nat) (h : n < 100) : ∀ c ∈ twoDigits n, c.isDigit = true := by
  revert n
  decide

/-- Sample dates: the model of `gmtime` on a few instants with known UTC calendar fields
(1970-01-01 00:00, 2000-02-29 00:00, 2024-02-29 12:34, 2099-12-31 23:59, 2100-01-01 00:00). -/
theorem gmtime_samples :
    gmtime 0 = ⟨70, 0, 1, 0, 0⟩ ∧
    gmtime 951782400 = ⟨100, 1, 29, 0, 0⟩ ∧
    gmtime 1709210096 = ⟨124, 1, 29, 12, 34⟩ ∧
    gmtime 4102444799 = ⟨199, 11, 31, 23, 59⟩ ∧
    gmtime 4102444800 = ⟨200, 0, 1, 0, 0⟩ := by
  decide

/-- Where the year arithmetic of `sendReport` is right: for an `epochTime` from
2000-01-01T00:00:00Z up to and excluding 2100-01-01T00:00:00Z, `tm_year - 100` is the UTC
year modulo 100, the `date` value is the six digits `YYMMDD` and the `time` value the four
digits `HHMM`, each component zero-padded to two digits. -/
theorem dateText_timeText_two_digit (epochTime : Nat)
    (h1 : 946684800 ≤ epochTime) (h2 : epochTime < 4102444800) :
    dateText epochTime =
      twoDigits ((civilFromDays (epochTime / 86400)).1 % 100) ++
      twoDigits (civilFromDays (epochTime / 86400)).2.1 ++
      twoDigits (civilFromDays (epochTime / 86400)).2.2 ∧
    timeText epochTime =
      twoDigits (epochTime % 86400 / 3600) ++ twoDigits (epochTime % 86400 % 3600 / 60) ∧
    ((gmtime epochTime).tm_year + 1900 = ((civilFromDays (epochTime / 86400)).1 : Int) ∧
      (gmtime epochTime).tm_mon + 1 = ((civilFromDays (epochTime / 86400)).2.1 : Int) ∧
      (gmtime epochTime).tm_mday = ((civilFromDays (epochTime / 86400)).2.2 : Int) ∧
      (gmtime epochTime).tm_hour = ((epochTime % 86400 / 3600 : Nat) : Int) ∧
      (gmtime epochTime).tm_min = ((epochTime % 86400 % 3600 / 60 : Nat) : Int)) ∧
    (dateText epochTime).length = 6 ∧ (timeText epochTime).length = 4 ∧
    (∀ c ∈ dateText epochTime, c.isDigit = true) ∧
    (∀ c ∈ timeText epochTime, c.isDigit = true) := by
  obtain ⟨y1, y2, m1, m2, d1, d2⟩ :=
    civilFromDays_bounds (epochTime / 86400) (by omega) (by omega)
  have hY : (gmtime epochTime).tm_year - 100 =
      (((civilFromDays (epochTime / 86400)).1 % 100 : Nat) : Int) := by
    simp only [gmtime]
    omega
  have hM : (gmtime epochTime).tm_mon + 1 = ((civilFromDays (epochTime / 86400)).2.1 : Int) := by
    simp only [gmtime]
    omega
  have hhour : epochTime % 86400 / 3600 < 100 := by omega
  have hmin : epochTime % 86400 % 3600 / 60 < 100 := by omega
  have hdate : dateText epochTime =
      twoDigits ((civilFromDays (epochTime / 86400)).1 % 100) ++
      twoDigits (civilFromDays (epochTime / 86400)).2.1 ++
      twoDigits (civilFromDays (epochTime / 86400)).2.2 := by
    unfold dateText
    simp only [hY, hM]
    rw [setw2_of_lt_100 _ (by omega), setw2_of_lt_100 _ (by omega)]
    simp only [gmtime]
    rw [setw2_of_lt_100 _ (by omega)]
  have htime : timeText epochTime =
      twoDigits (epochTime % 86400 / 3600) ++ twoDigits (epochTime % 86400 % 3600 / 60) := by
    unfold timeText
    simp only [gmtime]
    rw [setw2_of_lt_100 _ hhour, setw2_of_lt_100 _ hmin]
  refine ⟨hdate, htime, ⟨?_, hM, rfl, rfl, rfl⟩, ?_, ?_, ?_, ?_⟩
  · simp only [gmtime]; omega
  · rw [hdate]; rfl
  · rw [htime]; rfl
  · rw [hdate]
    intro c hc
    simp only [List.mem_append] at hc
    rcases hc with (hc | hc) | hc
    · exact twoDigits_isDigit _ (by omega) c hc
    · exact twoDigits_isDigit _ (by omega) c hc
    · exact twoDigits_isDigit _ (by omega) c hc
  · rw [htime]
    intro c hc
    simp only [List.mem_append] at hc
    rcases hc with hc | hc
    · exact twoDigits_isDigit _ hhour c hc
    · exact twoDigits_isDigit _ hmin c hc

/-- A worked run of the date and time fields at 2024-02-29 12:34:56 UTC. -/
theorem dateText_timeText_two_digit_witness :
    (946684800 ≤ 1709210096 ∧ 1709210096 < 4102444800) ∧
    dateText 1709210096 = "240229".toList ∧ timeText 1709210096 = "1234".toList :=
  ⟨⟨by decide, by decide⟩,
   (dateText_timeText_two_digit 1709210096 (by decide) (by decide)).1.trans (by decide),
   (dateText_timeText_two_digit 1709210096 (by decide) (by decide)).2.1.trans (by decide)⟩

/-- C7 at the failing input.  At `epochTime = 4102444800` (2100-01-01T00:00:00Z) `gmtime`
gives `tm_year = 200`, `tm_year - 100` is 100 and the `date` value is the seven characters
`1000101`, not the `yymmdd` of the comment in `sendReport`, which for this instant is
`000101`; the `time` value is `0000`.  At `epochTime = 0` (1970-01-01T00:00:00Z)
`tm_year - 100` is -30 and the `date` value is `-300101`, with a character that is not a
digit, where `yymmdd` is `700101`. -/
theorem dateText_not_yymmdd_outside_century :
    gmtime 4102444800 = ⟨200, 0, 1, 0, 0⟩ ∧
    dateText 4102444800 = "1000101".toList ∧ (dateText 4102444800).length ≠ 6 ∧
    twoDigits ((200 + 1900) % 100) ++ twoDigits (0 + 1) ++ twoDigits 1 = "000101".toList ∧
    timeText 4102444800 = "0000".toList ∧
    gmtime 0 = ⟨70, 0, 1, 0, 0⟩ ∧
    dateText 0 = "-300101".toList ∧ ¬ (∀ c ∈ dateText 0, c.isDigit = true) ∧
    twoDigits ((70 + 1900) % 100) ++ twoDigits (0 + 1) ++ twoDigits 1 = "700101".toList := by
  decide

/-! ### Decimal text -/

theorem natTextFuel_fuel : ∀ (f1 f2 n : Nat), n < f1 → n < f2 →
    natTextFuel f1 n = natTextFuel f2 n := by
  intro f1
  induction f1 with
  | zero => intro f2 n h; omega
  | succ f1 ih =>
    intro f2 n h1 h2
    cases f2 with
    | zero => omega
    | succ f2 =>
      unfold natTextFuel
      by_cases hn : n < 10
      · simp [hn]
      · simp only [hn, if_false]
        rw [ih f2 (n / 10) (by omega) (by omega)]

theorem natText_eq (n : Nat) :
    natText n = if n < 10 then [digitChar n] else natText (n / 10) ++ [digitChar (n % 10)] := by
  unfold natText
  rw [natTextFuel]
  by_cases hn : n < 10
  · simp [hn]
  · simp only [hn, if_false]
    rw [natTextFuel_fuel n (n / 10 + 1) (n / 10) (by omega) (by omega)]

theorem digitChar_facts : ∀ d : Nat, d < 10 →
    (digitChar d).isDigit = true ∧ (digitChar d).toNat - 48 = d ∧ digitChar d ≠ '&' ∧
      digitChar d ≠ '\r' := by
  decide

theorem natText_isDigit (n : Nat) : ∀ c ∈ natText n, c.isDigit = true := by
  induction n using Nat.strong_induction_on with
  | _ n ih =>
    rw [natText_eq]
    by_cases hn : n < 10
    · simp only [hn, if_true, List.mem_singleton]
      intro c hc
      rw [hc]
      exact (digitChar_facts n hn).1
    · simp only [hn, if_false, List.mem_append, List.mem_singleton]
      intro c hc
      rcases hc with hc | hc
      · exact ih (n / 10) (by omega) c hc
      · rw [hc]
        exact (digitChar_facts (n % 10) (by omega)).1

theorem parseDecimal_append_singleton (s : Str) (c : Char) :
    parseDecimal (s ++ [c]) = 10 * parseDecimal s + (c.toNat - 48) := by
  simp [parseDecimal, List.foldl_append]

theorem parseDecimal_natText (n : Nat) : parseDecimal (natText n) = n := by
  induction n using Nat.strong_induction_on with
  | _ n ih =>
    rw [natText_eq]
    by_cases hn : n < 10
    · simp only [hn, if_true]
      have := (digitChar_facts n hn).2.1
      simp [parseDecimal, this]
    · simp only [hn, if_false]
      rw [parseDecimal_append_singleton, ih (n / 10) (by omega),
        (digitChar_facts (n % 10) (by omega)).2.1]
      omega

theorem takeWhile_isDigit_append (ds rest : Str) (c0 : Char)
    (h : ∀ c ∈ ds, c.isDigit = true) (hc0 : c0.isDigit = false) :
    (ds ++ c0 :: rest).takeWhile Char.isDigit = ds := by
  induction ds with
  | nil => simp [List.takeWhile, hc0]
  | cons d ds ih =>
    have hd : d.isDigit = true := h d (List.mem_cons_self _ _)
    rw [List.cons_append, List.takeWhile_cons, if_pos hd,
      ih (fun c hc => h c (List.mem_cons_of_mem _ hc))]

theorem findAfter_skip (p0 : Char) (ps l rest : Str) (h : p0 ∉ l) :
    findAfter (p0 :: ps) (l ++ rest) = findAfter (p0 :: ps) rest := by
  induction l with
  | nil => rfl
  | cons c cs ih =>
    have hc : p0 ≠ c := fun e => h (e ▸ List.mem_cons_self _ _)
    have hcs : p0 ∉ cs := fun e => h (List.mem_cons_of_mem _ e)
    simp only [List.cons_append, findAfter, matchAt, hc, if_false]
    exact ih hcs

/-! ### The header and the body of the request -/

theorem findAfter_contentLength_header (rest : Str) :
    findAfter "Content-Length: ".toList
      ("Connection: Keep-Alive\r\n".toList ++
        ("Host: wsprnet.org\r\n".toList ++
          ("Content-Type: application/x-www-form-urlencoded\r\n".toList ++
            ("Content-Length: ".toList ++ rest)))) = some rest := by
  rfl

theorem findAfter_blank_header (rest : Str) :
    findAfter "\r\n\r\n".toList
      ("Connection: Keep-Alive\r\n".toList ++
        ("Host: wsprnet.org\r\n".toList ++
          ("Content-Type: application/x-www-form-urlencoded\r\n".toList ++
            ("Content-Length: ".toList ++ rest)))) = findAfter "\r\n\r\n".toList rest := by
  rfl

theorem findAfter_blank_tail (content : Str) :
    findAfter "\r\n\r\n".toList
      ("\r\n".toList ++ ("Accept-Language: en-US,*\r\n".toList ++
        ("User-Agent: Mozilla/5.0\r\n".toList ++ ("\r\n".toList ++ content)))) =
      some content := by
  rfl

theorem allText_shape (pid : ProgramId) (operatorGrid : Str) (report : Report) :
    allText pid operatorGrid report =
      "Connection: Keep-Alive\r\n".toList ++
        ("Host: wsprnet.org\r\n".toList ++
          ("Content-Type: application/x-www-form-urlencoded\r\n".toList ++
            ("Content-Length: ".toList ++
              (natText (contentText pid operatorGrid report).length ++
                ("\r\n".toList ++ ("Accept-Language: en-US,*\r\n".toList ++
                  ("User-Agent: Mozilla/5.0\r\n".toList ++
                    ("\r\n".toList ++ contentText pid operatorGrid report)))))))) := by
  simp only [allText, headerText, List.append_assoc]

/-- C4.  For every report, operator grid and program name and version, the message `all`
that `sendReport` builds has a body (the text after the first blank line) which is the
assembled `content`, and the digits written after `Content-Length: ` are the decimal text
of the body's length: the declared number equals the number of bytes of the body. -/
theorem contentLength_eq_body_length (pid : ProgramId) (operatorGrid : Str) (report : Report) :
    messageBody (allText pid operatorGrid report) = some (contentText pid operatorGrid report) ∧
    contentLengthDigits (allText pid operatorGrid report) =
      some (natText (contentText pid operatorGrid report).length) ∧
    declaredContentLength (allText pid operatorGrid report) =
      (messageBody (allText pid operatorGrid report)).map List.length := by
  have hbody : messageBody (allText pid operatorGrid report) =
      some (contentText pid operatorGrid report) := by
    unfold messageBody
    rw [allText_shape, findAfter_blank_header]
    have hnot : '\r' ∉ natText (contentText pid operatorGrid report).length := by
      intro hmem
      have := natText_isDigit _ _ hmem
      exact absurd this (by decide)
    have hpat : "\r\n\r\n".toList = '\r' :: "\n\r\n".toList := rfl
    rw [hpat, findAfter_skip _ _ _ _ hnot, ← hpat, findAfter_blank_tail]
  have hdigits : contentLengthDigits (allText pid operatorGrid report) =
      some (natText (contentText pid operatorGrid report).length) := by
    unfold contentLengthDigits
    rw [allText_shape, findAfter_contentLength_header]
    simp only [Option.map_some']
    have hcr : "\r\n".toList ++ ("Accept-Language: en-US,*\r\n".toList ++
        ("User-Agent: Mozilla/5.0\r\n".toList ++
          ("\r\n".toList ++ contentText pid operatorGrid report))) =
        '\r' :: ("\n".toList ++ ("Accept-Language: en-US,*\r\n".toList ++
        ("User-Agent: Mozilla/5.0\r\n".toList ++
          ("\r\n".toList ++ contentText pid operatorGrid report)))) := rfl
    rw [hcr, takeWhile_isDigit_append _ _ _ (natText_isDigit _) (by decide)]
  refine ⟨hbody, hdigits, ?_⟩
  unfold declaredContentLength
  rw [hdigits, hbody]
  simp only [Option.map_some', parseDecimal_natText]

/-! ### The form body -/

theorem amp_not_mem_natText (n : Nat) : '&' ∉ natText n := by
  intro h
  exact absurd (natText_isDigit n _ h) (by decide)

theorem amp_not_mem_intText (z : Int) : '&' ∉ intText z := by
  unfold intText
  split_ifs
  · intro h
    rcases List.mem_cons.mp h with h | h
    · exact absurd h (by decide)
    · exact amp_not_mem_natText _ h
  · exact amp_not_mem_natText _

theorem amp_not_mem_replicate_zero (k : Nat) : '&' ∉ List.replicate k '0' := by
  intro h
  exact absurd (List.eq_of_mem_replicate h) (by decide)

theorem amp_not_mem_setw2 (z : Int) : '&' ∉ setw2 z := by
  unfold setw2
  intro h
  rcases List.mem_append.mp h with h | h
  · exact amp_not_mem_replicate_zero _ h
  · exact amp_not_mem_intText _ h

theorem amp_not_mem_putFixed (prec : Nat) (v : Flt) : '&' ∉ v.putFixed prec := by
  unfold Flt.putFixed
  simp only [List.mem_append, not_or]
  refine ⟨⟨⟨⟨?_, amp_not_mem_natText _⟩, by decide⟩, amp_not_mem_replicate_zero _⟩,
    amp_not_mem_natText _⟩
  split_ifs <;> decide

theorem amp_not_mem_dateText (e : Nat) : '&' ∉ dateText e := by
  unfold dateText
  simp only [List.mem_append, not_or]
  exact ⟨⟨amp_not_mem_setw2 _, amp_not_mem_setw2 _⟩, amp_not_mem_setw2 _⟩

theorem amp_not_mem_timeText (e : Nat) : '&' ∉ timeText e := by
  unfold timeText
  simp only [List.mem_append, not_or]
  exact ⟨amp_not_mem_setw2 _, amp_not_mem_setw2 _⟩

/-- The pieces of the body, in the order `sendReport` writes them. -/
theorem contentText_eq_intercalate (pid : ProgramId) (operatorGrid : Str) (report : Report) :
    contentText pid operatorGrid report = ['&'].intercalate
      [ "function=".toList ++ "wspr".toList,
        "rcall=".toList ++ report.reporterCallsign,
        "rgrid=".toList ++ operatorGrid,
        "rqrg=".toList ++ mhzText report.recvfreq,
        "date=".toList ++ dateText report.epochTime,
        "time=".toList ++ timeText report.epochTime,
        "sig=".toList ++ intText report.snr,
        "dt=".toList ++ report.dt.putFixed 2,
        "drift=".toList ++ intText report.drift,
        "tcall=".toList ++ report.callsign,
        "tgrid=".toList ++ report.locator,
        "tqrg=".toList ++ mhzText report.freq,
        "dbm=".toList ++ intText report.dbm,
        "version=".toList ++ (pid.PROGRAM_NAME ++ (" ".toList ++ pid.PROGRAM_VERSION)),
        "mode=2".toList ] := by
  have hamp : "&".toList = ['&'] := rfl
  simp only [contentText, List.intercalate, List.intersperse, List.flatten,
    List.append_assoc, hamp, List.append_nil, List.singleton_append, List.cons_append,
    List.nil_append]

theorem splitKeyValue_samples (v : Str) :
    splitKeyValue ("function=".toList ++ v) = ("function".toList, v) ∧
    splitKeyValue ("rcall=".toList ++ v) = ("rcall".toList, v) ∧
    splitKeyValue ("rgrid=".toList ++ v) = ("rgrid".toList, v) ∧
    splitKeyValue ("rqrg=".toList ++ v) = ("rqrg".toList, v) ∧
    splitKeyValue ("date=".toList ++ v) = ("date".toList, v) ∧
    splitKeyValue ("time=".toList ++ v) = ("time".toList, v) ∧
    splitKeyValue ("sig=".toList ++ v) = ("sig".toList, v) ∧
    splitKeyValue ("dt=".toList ++ v) = ("dt".toList, v) ∧
    splitKeyValue ("drift=".toList ++ v) = ("drift".toList, v) ∧
    splitKeyValue ("tcall=".toList ++ v) = ("tcall".toList, v) ∧
    splitKeyValue ("tgrid=".toList ++ v) = ("tgrid".toList, v) ∧
    splitKeyValue ("tqrg=".toList ++ v) = ("tqrg".toList, v) ∧
    splitKeyValue ("dbm=".toList ++ v) = ("dbm".toList, v) ∧
    splitKeyValue ("version=".toList ++ v) = ("version".toList, v) :=
  ⟨rfl, rfl, rfl, rfl, rfl, rfl, rfl, rfl, rfl, rfl, rfl, rfl, rfl, rfl⟩

/-- C5 (as amended).  When none of the strings written verbatim into the body (reporter
callsign, operator grid, callsign, locator, program name, program version) contains `&`, the
body splits on `&` and then at the first `=` into exactly fifteen pairs with the keys
function, rcall, rgrid, rqrg, date, time, sig, dt, drift, tcall, tgrid, tqrg, dbm, version,
mode in this order; function is `wspr`, mode is `2`, the values of rcall, rgrid, tcall and
tgrid are the raw strings, and sig, drift and dbm are the decimal texts of the numbers. -/
theorem contentText_formPairs (pid : ProgramId) (operatorGrid : Str) (report : Report)
    (h1 : '&' ∉ report.reporterCallsign) (h2 : '&' ∉ operatorGrid)
    (h3 : '&' ∉ report.callsign) (h4 : '&' ∉ report.locator)
    (h5 : '&' ∉ pid.PROGRAM_NAME) (h6 : '&' ∉ pid.PROGRAM_VERSION) :
    formPairs (contentText pid operatorGrid report) =
      [ ("function".toList, "wspr".toList),
        ("rcall".toList, report.reporterCallsign),
        ("rgrid".toList, operatorGrid),
        ("rqrg".toList, mhzText report.recvfreq),
        ("date".toList, dateText report.epochTime),
        ("time".toList, timeText report.epochTime),
        ("sig".toList, intText report.snr),
        ("dt".toList, report.dt.putFixed 2),
        ("drift".toList, intText report.drift),
        ("tcall".toList, report.callsign),
        ("tgrid".toList, report.locator),
        ("tqrg".toList, mhzText report.freq),
        ("dbm".toList, intText report.dbm),
        ("version".toList, pid.PROGRAM_NAME ++ (" ".toList ++ pid.PROGRAM_VERSION)),
        ("mode".toList, "2".toList) ] := by
  have key : ∀ (k v : Str), '&' ∉ k → '&' ∉ v → '&' ∉ k ++ v := by
    intro k v hk hv h
    rcases List.mem_append.mp h with h | h
    · exact hk h
    · exact hv h
  unfold formPairs
  rw [contentText_eq_intercalate, List.splitOn_intercalate]
  · simp only [List.map_cons, List.map_nil]
    rw [(splitKeyValue_samples _).1, (splitKeyValue_samples _).2.1,
      (splitKeyValue_samples _).2.2.1, (splitKeyValue_samples _).2.2.2.1,
      (splitKeyValue_samples _).2.2.2.2.1, (splitKeyValue_samples _).2.2.2.2.2.1,
      (splitKeyValue_samples _).2.2.2.2.2.2.1, (splitKeyValue_samples _).2.2.2.2.2.2.2.1,
      (splitKeyValue_samples _).2.2.2.2.2.2.2.2.1,
      (splitKeyValue_samples _).2.2.2.2.2.2.2.2.2.1,
      (splitKeyValue_samples _).2.2.2.2.2.2.2.2.2.2.1,
      (splitKeyValue_samples _).2.2.2.2.2.2.2.2.2.2.2.1,
      (splitKeyValue_samples _).2.2.2.2.2.2.2.2.2.2.2.2.1,
      (splitKeyValue_samples _).2.2.2.2.2.2.2.2.2.2.2.2.2]
    rfl
  · intro l hl
    simp only [List.mem_cons, List.mem_singleton, List.not_mem_nil, or_false] at hl
    rcases hl with h | h | h | h | h | h | h | h | h | h | h | h | h | h | h <;> subst h
    · decide
    · exact key _ _ (by decide) h1
    · exact key _ _ (by decide) h2
    · exact key _ _ (by decide) (amp_not_mem_putFixed _ _)
    · exact key _ _ (by decide) (amp_not_mem_dateText _)
    · exact key _ _ (by decide) (amp_not_mem_timeText _)
    · exact key _ _ (by decide) (amp_not_mem_intText _)
    · exact key _ _ (by decide) (amp_not_mem_putFixed _ _)
    · exact key _ _ (by decide) (amp_not_mem_intText _)
    · exact key _ _ (by decide) h3
    · exact key _ _ (by decide) h4
    · exact key _ _ (by decide) (amp_not_mem_putFixed _ _)
    · exact key _ _ (by decide) (amp_not_mem_intText _)
    · exact key _ _ (by decide) (key _ _ h5 (key _ _ (by decide) h6))
    · decide
  · simp

/-- A worked run of the body layout on the report of the specification's scenario. -/
theorem contentText_formPairs_witness :
    ('&' ∉ exampleReport.reporterCallsign ∧ '&' ∉ "FN20".toList ∧
      '&' ∉ exampleReport.callsign ∧ '&' ∉ exampleReport.locator ∧
      '&' ∉ examplePid.PROGRAM_NAME ∧ '&' ∉ examplePid.PROGRAM_VERSION) ∧
    formPairs (contentText examplePid "FN20".toList exampleReport) =
      [ ("function".toList, "wspr".toList), ("rcall".toList, "W2AXR".toList),
        ("rgrid".toList, "FN20".toList), ("rqrg".toList, "7.040125".toList),
        ("date".toList, "240229".toList), ("time".toList, "1234".toList),
        ("sig".toList, "-12".toList), ("dt".toList, "0.30".toList),
        ("drift".toList, "0".toList), ("tcall".toList, "K1ABC".toList),
        ("tgrid".toList, "FN42".toList), ("tqrg".toList, "7.040100".toList),
        ("dbm".toList, "23".toList), ("version".toList, "CWSL_DIGI 0.88".toList),
        ("mode".toList, "2".toList) ] :=
  ⟨⟨by decide, by decide, by decide, by decide, by decide, by decide⟩,
   (contentText_formPairs examplePid "FN20".toList exampleReport
      (by decide) (by decide) (by decide) (by decide) (by decide) (by decide)).trans
      (by decide)⟩

/-- C5 fails as stated.  With the callsign `A&B` the body is not percent-encoded: it splits
into sixteen pieces, the `tcall` value is `A`, and a piece `B` without `=` follows it. -/
theorem contentText_formPairs_counterexample :
    (formPairs (contentText examplePid "FN20".toList
      { exampleReport with callsign := "A&B".toList })).length = 16 ∧
    (formPairs (contentText examplePid "FN20".toList
      { exampleReport with callsign := "A&B".toList })).get? 9 =
        some ("tcall".toList, "A".toList) ∧
    (formPairs (contentText examplePid "FN20".toList
      { exampleReport with callsign := "A&B".toList })).get? 10 =
        some ("B".toList, []) := by
  decide

/-! ### Further theorems on the statistics tracker -/

theorem pruneFront_sort_idem (c : Nat) (l : List Nat) :
    pruneFront c ((pruneFront c (l.insertionSort (· ≤ ·))).insertionSort (· ≤ ·)) =
      pruneFront c (l.insertionSort (· ≤ ·)) := by
  have hs := sorted_pruneFront_sort c l
  rw [List.Sorted.insertionSort_eq hs, pruneFront_sorted_eq_filter c _ hs, List.filter_eq_self]
  intro t ht
  have := ((mem_pruneFront_sort c l t).mp ht).2
  simpa using this

theorem countP_ge_pruneFront_sort (c : Nat) (l : List Nat) :
    (pruneFront c (l.insertionSort (· ≤ ·))).countP (fun x => decide (c ≤ x)) =
      (pruneFront c (l.insertionSort (· ≤ ·))).length := by
  rw [List.countP_eq_length]
  intro t ht
  have := ((mem_pruneFront_sort c l t).mp ht).2
  simp only [decide_eq_true_eq]
  omega

/-- Without wrap-around the counts grow with the window: for `w1 <= w2` and
`w2 * 1000 <= now`, every entry of `getCounts w1` is at most the entry of `getCounts w2`. -/
theorem getCounts_mono_of_no_wrap (st : Stats) (now w1 w2 : Nat) (hnow : now < U64)
    (hw : w1 ≤ w2) (h2 : w2 * 1000 ≤ now) (s : Nat) (c1 c2 : Nat)
    (e1 : (st.getCounts w1 now)[s]? = some c1) (e2 : (st.getCounts w2 now)[s]? = some c2) :
    c1 ≤ c2 := by
  simp only [Stats.getCounts, List.getElem?_map, Option.map_eq_some'] at e1 e2
  obtain ⟨d1, hd1, rfl⟩ := e1
  obtain ⟨d2, hd2, rfl⟩ := e2
  rw [hd1] at hd2
  cases Option.some.inj hd2
  rw [sub64_of_le hnow h2, sub64_of_le hnow (by omega : w1 * 1000 ≤ now)]
  apply List.countP_mono_left
  intro x _ hx
  simp only [decide_eq_true_eq] at hx ⊢
  omega

/-- C14.  For every tracker state whose queued events have valid source ids and every clock
value `now`, `process` run twice at the same `now` with nothing enqueued in between returns
both times, the second run leaves the state of the first run unchanged (every history
included), and `getCounts w` gives the same vector after either run for every window `w`. -/
theorem process_twice (st : Stats) (now : Nat)
    (hv : ∀ e ∈ st.reports, e.instanceId < st.decoderStatsVec.length) :
    ∃ st1 st2, st.process now = some st1 ∧ st1.process now = some st2 ∧
      st2.decoderStatsVec = st1.decoderStatsVec ∧ st2 = st1 ∧
      ∀ w, st2.getCounts w now = st1.getCounts w now := by
  obtain ⟨vec', h1, -, -⟩ := drain_spec st.reports st.decoderStatsVec hv
  have hp : st.process now =
      some (Stats.prune { st with decoderStatsVec := vec', reports := [] } now) := by
    simp only [Stats.process, h1]
  have hvec : (Stats.prune { st with decoderStatsVec := vec', reports := [] } now).process now =
      some (Stats.prune { st with decoderStatsVec := vec', reports := [] } now) := by
    simp only [Stats.process, Stats.prune, Stats.drain, List.map_map]
    congr 2
    apply List.map_congr_left
    intro dec _
    simp only [Function.comp]
    exact pruneFront_sort_idem _ _
  exact ⟨_, _, hp, hvec, rfl, rfl, fun _ => rfl⟩

/-- A worked run of two `process` calls in a row on a state with a queue. -/
theorem process_twice_witness :
    (∀ e ∈ exampleTracker.reports, e.instanceId < exampleTracker.decoderStatsVec.length) ∧
    ∃ st1 st2, exampleTracker.process 100000 = some st1 ∧
      st1.process 100000 = some st2 ∧
      st2.decoderStatsVec = st1.decoderStatsVec ∧ st2 = st1 ∧
      ∀ w, st2.getCounts w 100000 = st1.getCounts w 100000 :=
  ⟨by decide, process_twice exampleTracker 100000 (by decide)⟩

/-- C17 at the failing input.  Clock `now = 1700000001000` ms, one history holding the
timestamp `1700000000000` (one second old), windows `w1 = 60` and `w2 = 2000000000` seconds.
`w2 * 1000` exceeds `now`, the unsigned difference `mt - intervalMs` wraps to
`2^64 - 299999999000`, and `getCounts w2` counts nothing while `getCounts w1` counts the
timestamp. -/
theorem getCounts_not_monotone_on_wrap :
    (60 ≤ 2000000000 ∧ 2000000000 < 2 ^ 32 ∧ 1700000001000 < 2 ^ 64) ∧
    sub64 1700000001000 (2000000000 * 1000) = 2 ^ 64 - 299999999000 ∧
    (trackerWith 3600 [[1700000000000]]).getCounts 60 1700000001000 = [1] ∧
    (trackerWith 3600 [[1700000000000]]).getCounts 2000000000 1700000001000 = [0] := by
  decide

/-- C18.  For every tracker state whose `maxIntervalMs` is the retention window in
milliseconds and every clock value `now` (also when `R * 1000 > now` and the cutoff wraps),
right after `prune` at `now` the call `getCounts R` at the same `now` returns, for every
source, the full length of its history. -/
theorem getCounts_retention_after_prune (st : Stats) (now : Nat)
    (hms : st.maxIntervalMs = st.maxIntervalSec * 1000) :
    (st.prune now).getCounts st.maxIntervalSec now =
      (st.prune now).decoderStatsVec.map List.length := by
  simp only [Stats.getCounts, Stats.prune, List.map_map, hms]
  apply List.map_congr_left
  intro dec _
  simp only [Function.comp]
  exact countP_ge_pruneFront_sort _ _

/-- A worked run of `prune` followed by a count over the retention window, with a cutoff that
wraps (`R * 1000 > now`). -/
theorem getCounts_retention_after_prune_witness :
    ((trackerWith 10 [[4000, 18446744073709551615, 7], [18446744073709546616]]).maxIntervalMs =
      (trackerWith 10 [[4000, 18446744073709551615, 7],
        [18446744073709546616]]).maxIntervalSec * 1000) ∧
    ((trackerWith 10 [[4000, 18446744073709551615, 7], [18446744073709546616]]).prune
      5000).getCounts 10 5000 = [1, 0] :=
  ⟨by decide,
   (getCounts_retention_after_prune
      (trackerWith 10 [[4000, 18446744073709551615, 7], [18446744073709546616]]) 5000
      (by decide)).trans (by decide)⟩

theorem queuedFor_append_singleton (s' : Nat) (q : List StatsItem) (s t : Nat) :
    queuedFor s' (q ++ [⟨s, t⟩]) = queuedFor s' q ++ (if s = s' then [t] else []) := by
  unfold queuedFor
  by_cases h : s = s'
  · simp [List.filter_append, h]
  · simp [List.filter_append, h]

/-- C19.  For every tracker state whose queued events have valid source ids, every clock
value `now`, every valid source `s` and timestamp `t`: `process` at `now` returns with and
without the extra event `(s, t)` recorded first; the number of histories is unchanged (and
equals `numDecoders` when it did before); for every other source the history and every
`getCounts w` entry are the same in both runs; and the entry for `s` is the same or one
higher with the event. -/
theorem process_source_isolation (st : Stats) (now s t : Nat)
    (hv : ∀ e ∈ st.reports, e.instanceId < st.decoderStatsVec.length)
    (hs : s < st.decoderStatsVec.length) :
    ∃ st0 st1, st.process now = some st0 ∧ (st.handleReport s t).process now = some st1 ∧
      st0.decoderStatsVec.length = st.decoderStatsVec.length ∧
      st1.decoderStatsVec.length = st.decoderStatsVec.length ∧
      (st.decoderStatsVec.length = st.numDecoders →
        st1.decoderStatsVec.length = st1.numDecoders) ∧
      (∀ s', s' ≠ s → st1.decoderStatsVec[s']? = st0.decoderStatsVec[s']? ∧
        ∀ w, (st1.getCounts w now)[s']? = (st0.getCounts w now)[s']?) ∧
      (∀ w, ∃ c0 c1, (st0.getCounts w now)[s]? = some c0 ∧
        (st1.getCounts w now)[s]? = some c1 ∧ c0 ≤ c1 ∧ c1 ≤ c0 + 1) := by
  have hv1 : ∀ e ∈ (st.handleReport s t).reports,
      e.instanceId < (st.handleReport s t).decoderStatsVec.length := by
    intro e he
    simp only [Stats.handleReport, List.mem_append, List.mem_singleton] at he ⊢
    rcases he with he | he
    · exact hv e he
    · rw [he]; exact hs
  obtain ⟨st0, p0, l0, -, -, g0⟩ := process_spec st now hv
  obtain ⟨st1, p1, l1, -, -, g1⟩ := process_spec (st.handleReport s t) now hv1
  have hn1 : st1.numDecoders = st.numDecoders := by
    have : some st1 = _ := p1.symm
    simp only [Stats.process, Stats.handleReport] at this
    split at this
    · cases this
    · cases this; rfl
  have l1' : st1.decoderStatsVec.length = st.decoderStatsVec.length := l1
  have g1' : ∀ s', s' < st.decoderStatsVec.length →
      st1.decoderStatsVec[s']? = some (pruneFront (sub64 now st.maxIntervalMs)
        (((st.decoderStatsVec[s']?).getD [] ++ (queuedFor s' st.reports ++
          (if s = s' then [t] else []))).insertionSort (· ≤ ·))) := by
    intro s' hs'
    have := g1 s' hs'
    simpa only [Stats.handleReport, queuedFor_append_singleton] using this
  refine ⟨st0, st1, p0, p1, l0, l1', fun h => by rw [l1', hn1, h], ?_, ?_⟩
  · intro s' hne
    have heq : st1.decoderStatsVec[s']? = st0.decoderStatsVec[s']? := by
      by_cases hs' : s' < st.decoderStatsVec.length
      · rw [g1' s' hs', g0 s' hs', if_neg (Ne.symm hne), List.append_nil]
      · rw [List.getElem?_eq_none (by omega), List.getElem?_eq_none (by omega)]
    refine ⟨heq, fun w => ?_⟩
    simp only [Stats.getCounts, List.getElem?_map, heq]
  · intro w
    have e0 : (st0.getCounts w now)[s]? = some
        ((pruneFront (sub64 now st.maxIntervalMs)
          (((st.decoderStatsVec[s]?).getD [] ++ queuedFor s st.reports).insertionSort
            (· ≤ ·))).countP (fun x => decide (sub64 now (w * 1000) ≤ x))) := by
      simp only [Stats.getCounts, List.getElem?_map, g0 s hs, Option.map_some']
    have e1 : (st1.getCounts w now)[s]? = some
        ((pruneFront (sub64 now st.maxIntervalMs)
          (((st.decoderStatsVec[s]?).getD [] ++ (queuedFor s st.reports ++ [t])).insertionSort
            (· ≤ ·))).countP (fun x => decide (sub64 now (w * 1000) ≤ x))) := by
      simp only [Stats.getCounts, List.getElem?_map, g1' s hs, Option.map_some', if_true]
    have hsplit : ∀ p : Nat → Bool,
        ((st.decoderStatsVec[s]?).getD [] ++ (queuedFor s st.reports ++ [t])).countP p =
          ((st.decoderStatsVec[s]?).getD [] ++ queuedFor s st.reports).countP p +
            ([t] : List Nat).countP p := by
      intro p
      rw [← List.append_assoc, List.countP_append]
    have hone : ∀ p : Nat → Bool, ([t] : List Nat).countP p ≤ 1 :=
      fun p => (List.countP_le_length p).trans (le_of_eq rfl)
    refine ⟨_, _, e0, e1, ?_, ?_⟩
    · rw [countP_pruneFront_sort, countP_pruneFront_sort, hsplit]
      omega
    · rw [countP_pruneFront_sort, countP_pruneFront_sort, hsplit]
      have := hone (fun t => decide (sub64 now (w * 1000) ≤ t) &&
          decide (sub64 now st.maxIntervalMs < t))
      omega

/-- A worked run of source isolation: the event `(1, 99500)` recorded before `process`. -/
theorem process_source_isolation_witness :
    ((∀ e ∈ exampleTracker.reports, e.instanceId < exampleTracker.decoderStatsVec.length) ∧
      1 < exampleTracker.decoderStatsVec.length) ∧
    ∃ st0 st1, exampleTracker.process 100000 = some st0 ∧
      (exampleTracker.handleReport 1 99500).process 100000 = some st1 ∧
      st0.decoderStatsVec.length = exampleTracker.decoderStatsVec.length ∧
      st1.decoderStatsVec.length = exampleTracker.decoderStatsVec.length ∧
      (exampleTracker.decoderStatsVec.length = exampleTracker.numDecoders →
        st1.decoderStatsVec.length = st1.numDecoders) ∧
      (∀ s', s' ≠ 1 → st1.decoderStatsVec[s']? = st0.decoderStatsVec[s']? ∧
        ∀ w, (st1.getCounts w 100000)[s']? = (st0.getCounts w 100000)[s']?) ∧
      (∀ w, ∃ c0 c1, (st0.getCounts w 100000)[1]? = some c0 ∧
        (st1.getCounts w 100000)[1]? = some c1 ∧ c0 ≤ c1 ∧ c1 ≤ c0 + 1) :=
  ⟨⟨by decide, by decide⟩,
   process_source_isolation exampleTracker 100000 1 99500 (by decide) (by decide)⟩

/-! ### `sendMessage` and the retry loop -/

theorem toInt32_of_lt (n : Nat) (h : n < 2 ^ 31) : toInt32 n = (n : Int) := by
  unfold toInt32
  omega

theorem sendMessageLoop_spec (message : Str) (total : Int)
    (htot : total = (message.length : Int)) :
    ∀ (fuel : Nat) (sent : Int) (w : Wire), 0 ≤ sent → sent ≤ total →
      SendContract w.sendResult total fuel w.sendCalls sent →
      ∀ r w', sendMessageLoop message total fuel sent w = some (r, w') →
        (r = total ∨ r = SOCKET_ERROR) ∧
        (r = total → w'.written = w.written ++ message.drop sent.toNat) := by
  intro fuel
  induction fuel with
  | zero =>
    intro sent w _ _ _ r w' h
    simp [sendMessageLoop] at h
  | succ fuel ih =>
    intro sent w h0 h1 hc r w' h
    unfold sendMessageLoop at h
    simp only [Wire.send] at h
    by_cases he : w.sendResult w.sendCalls = SOCKET_ERROR
    · simp only [he, if_true, Option.some.injEq, Prod.mk.injEq] at h
      obtain ⟨hr, -⟩ := h
      subst hr
      refine ⟨Or.inr rfl, fun hh => ?_⟩
      unfold SOCKET_ERROR at hh
      omega
    · simp only [he, if_false] at h
      unfold SendContract at hc
      rcases hc with hc | ⟨b0, b1, hrec⟩
      · exact absurd hc he
      · have hnat : ∃ s : Nat, sent = (s : Int) := ⟨sent.toNat, by omega⟩
        obtain ⟨s, rfl⟩ := hnat
        obtain ⟨b, hb⟩ : ∃ b : Nat, w.sendResult w.sendCalls = (b : Int) :=
          ⟨(w.sendResult w.sendCalls).toNat, by omega⟩
        have hsb : s + b ≤ message.length := by omega
        have htake : ((message.drop s).take ((total - (s : Int)).toNat)).take b =
            (message.drop s).take b := by
          rw [List.take_take]
          congr 1
          omega
        by_cases hlt : (s : Int) + w.sendResult w.sendCalls < total
        · simp only [hlt, if_true] at h
          have hcr := hrec hlt
          have := ih ((s : Int) + w.sendResult w.sendCalls)
            { w with
              sendCalls := w.sendCalls + 1
              written := w.written ++
                ((message.drop (s : Int).toNat).take (total - (s : Int)).toNat).take
                  (w.sendResult w.sendCalls).toNat }
            (by omega) (by omega) hcr r w' h
          refine ⟨this.1, fun hh => ?_⟩
          rw [this.2 hh]
          simp only [hb, Int.toNat_ofNat, htake, List.append_assoc]
          have e1 : ((s : Int) + (b : Int)).toNat = s + b := by omega
          rw [e1, ← List.drop_drop, List.take_append_drop]
        · simp only [hlt, if_false, Option.some.injEq, Prod.mk.injEq] at h
          obtain ⟨hr, hw⟩ := h
          subst hr
          subst hw
          refine ⟨Or.inl (by omega), fun _ => ?_⟩
          simp only [hb, Int.toNat_ofNat, htake]
          congr 1
          apply List.take_of_length_le
          rw [List.length_drop]
          omega

theorem sendMessageLoop_returns (message : Str) (total : Int) :
    ∀ (fuel : Nat) (sent : Int) (w : Wire), 0 ≤ sent → sent ≤ total →
      total - sent < (fuel : Int) →
      SendContract w.sendResult total fuel w.sendCalls sent →
      (∀ k, w.sendResult k = 0 → total = 0) →
      ∃ r w', sendMessageLoop message total fuel sent w = some (r, w') := by
  intro fuel
  induction fuel with
  | zero =>
    intro sent w h0 h1 hf _ _
    omega
  | succ fuel ih =>
    intro sent w h0 h1 hf hc hz
    unfold sendMessageLoop
    simp only [Wire.send]
    by_cases he : w.sendResult w.sendCalls = SOCKET_ERROR
    · simp only [he, if_true]
      exact ⟨_, _, rfl⟩
    · simp only [he, if_false]
      unfold SendContract at hc
      rcases hc with hc | ⟨b0, b1, hrec⟩
      · exact absurd hc he
      · by_cases hlt : sent + w.sendResult w.sendCalls < total
        · simp only [hlt, if_true]
          have hpos : w.sendResult w.sendCalls ≠ 0 := by
            intro h0'
            have := hz _ h0'
            omega
          exact ih _ _ (by omega) (by omega) (by push_cast at hf ⊢; omega) (hrec hlt) hz
        · simp only [hlt, if_false]
          exact ⟨_, _, rfl⟩

/-- A transport on which every `send()` returns 0 while bytes remain: `sendMessage` does not
return, whatever the number of iterations allowed. -/
theorem sendMessageLoop_stalls (message : Str) (total : Int) :
    ∀ (fuel : Nat) (sent : Int) (w : Wire), sent < total → (∀ k, w.sendResult k = 0) →
      sendMessageLoop message total fuel sent w = none := by
  intro fuel
  induction fuel with
  | zero => intro sent w _ _; rfl
  | succ fuel ih =>
    intro sent w hlt hz
    unfold sendMessageLoop
    simp only [Wire.send, hz, SOCKET_ERROR, add_zero, hlt, if_true]
    simp only [show ¬ ((0 : Int) = -1) by decide, if_false]
    exact ih _ _ hlt hz

/-- C16.  For every message shorter than `2^31` bytes and every transport whose `send()`
returns `SOCKET_ERROR` or a count between 0 and the number of bytes still unsent: whenever
`sendMessage` returns, its result is the message length or `SOCKET_ERROR`, and with the
message length exactly the bytes of the message have been written; `sendMessageWithRetry`,
given that result by its first call of `sendMessage`, returns after this one call (`true`
for the message length, `false` for `SOCKET_ERROR`), so the second and third attempts are
not reached.  `sendMessage` does return within `length + 1` calls of `send()` when no
`send()` returns 0 or the message is empty. -/
theorem sendMessage_all_or_error (message : Str) (w : Wire)
    (hlen : message.length < 2 ^ 31)
    (hc : ∀ n, SendContract w.sendResult (message.length : Int) n w.sendCalls 0) :
    (∀ fuel r w', sendMessage fuel message w = some (r, w') →
      (r = (message.length : Int) ∨ r = SOCKET_ERROR) ∧
      (r = (message.length : Int) → w'.written = w.written ++ message) ∧
      ∀ net : Net, net.sendMessageResult net.sendLog.length = r →
        (sendMessageWithRetry message net).2.sendLog = net.sendLog ++ [message] ∧
        ((sendMessageWithRetry message net).1 = true ↔ r = (message.length : Int))) ∧
    (((∀ k, w.sendResult k ≠ 0) ∨ message = []) →
      ∃ r w', sendMessage (message.length + 1) message w = some (r, w')) := by
  have ht := toInt32_of_lt message.length hlen
  constructor
  · intro fuel r w' h
    unfold sendMessage at h
    rw [ht] at h
    have hs := sendMessageLoop_spec message (message.length : Int) rfl fuel 0 w
      (le_refl _) (by omega) (hc fuel) r w' h
    refine ⟨hs.1, fun hr => by simpa using hs.2 hr, ?_⟩
    intro net hnet
    rw [sendMessageWithRetry_eq, hnet]
    rcases hs.1 with hr | hr
    · have hsz : toSizeT r = message.length := by
        rw [hr]
        unfold toSizeT
        omega
      rw [if_pos hsz]
      exact ⟨rfl, fun _ => hr, fun _ => rfl⟩
    · have hsz : ¬ toSizeT r = message.length := by
        rw [hr]
        exact toSizeT_SOCKET_ERROR _ (by omega)
      rw [if_neg hsz, if_pos hr]
      refine ⟨rfl, fun h' => absurd h' (by simp), fun h' => ?_⟩
      rw [hr] at h'
      unfold SOCKET_ERROR at h'
      omega
  · intro hp
    unfold sendMessage
    rw [ht]
    apply sendMessageLoop_returns message _ _ 0 w (le_refl _) (by omega)
      (by push_cast; omega) (hc _)
    intro k hk
    rcases hp with hp | hp
    · exact absurd hk (hp k)
    · rw [hp]; rfl

/-- A worked run of `sendMessage` on a five-byte message sent in two pieces (2 + 3 bytes). -/
theorem sendMessage_all_or_error_witness :
    ("hello".toList.length < 2 ^ 31 ∧
      (∀ n, SendContract exampleWire.sendResult ("hello".toList.length : Int) n
        exampleWire.sendCalls 0) ∧
      ((∀ k, exampleWire.sendResult k ≠ 0) ∨ "hello".toList = [])) ∧
    (∃ r w', sendMessage ("hello".toList.length + 1) "hello".toList exampleWire = some (r, w')) ∧
    (sendMessage 6 "hello".toList exampleWire).map (fun p => (p.1, p.2.written)) =
      some (5, "hello".toList) :=
  have hc : ∀ n, SendContract exampleWire.sendResult ("hello".toList.length : Int) n
      exampleWire.sendCalls 0 := by
    intro n
    cases n with
    | zero => trivial
    | succ m =>
      refine Or.inr ⟨by decide, by decide, fun _ => ?_⟩
      cases m with
      | zero => trivial
      | succ m => exact Or.inr ⟨by decide, by decide, fun h => absurd h (by decide)⟩
  have hz : ∀ k, exampleWire.sendResult k ≠ 0 := by
    intro k
    simp only [exampleWire]
    split_ifs <;> decide
  ⟨⟨by decide, hc, Or.inl hz⟩,
   (sendMessage_all_or_error "hello".toList exampleWire (by decide) hc).2 (Or.inl hz),
   by decide⟩

/-! ### Frame properties of `sendReport` -/

theorem toSizeT_natCast (n : Nat) (h : n < 2 ^ 63) : toSizeT (n : Int) = n := by
  unfold toSizeT
  omega

theorem sendMessageWithRetry_first_success (message : Str) (net : Net)
    (hlen : message.length < 2 ^ 63)
    (h : net.sendMessageResult net.sendLog.length = (message.length : Int)) :
    sendMessageWithRetry message net =
      (true, { net with sendLog := net.sendLog ++ [message],
                        trace := net.trace ++ [Event.send message] }) := by
  rw [sendMessageWithRetry_eq, h, if_pos (toSizeT_natCast _ hlen)]
  rfl

theorem readResponseLoop_frame (net : Net) :
    (readResponseLoop 4 0 [] net).2.2.sendLog = net.sendLog ∧
    (readResponseLoop 4 0 [] net).2.2.connectOutcome = net.connectOutcome ∧
    (readResponseLoop 4 0 [] net).2.2.closeStatus = net.closeStatus ∧
    (readResponseLoop 4 0 [] net).2.2.connectCalls = net.connectCalls ∧
    (readResponseLoop 4 0 [] net).2.2.closeCalls = net.closeCalls ∧
    (readResponseLoop 4 0 [] net).2.2.openSockets = net.openSockets := by
  rw [readResponseLoop_eq]
  split_ifs <;> exact ⟨rfl, rfl, rfl, rfl, rfl, rfl⟩

/-- C15.  For every report, when every call of `sendMessage` reports the full length of its
message, `sendReport` hands exactly two messages to the socket, and the bytes written, taken
together, are the request line `POST /post? HTTP/1.1` with CRLF, the six header lines
(Connection, Host, Content-Type, Content-Length, Accept-Language, User-Agent) each with CRLF,
one empty line, and the body, with nothing after the body. -/
theorem sendReport_request_bytes (pid : ProgramId) (operatorGrid : Str) (report : Report)
    (net : Net)
    (hlen : (allText pid operatorGrid report).length < 2 ^ 63)
    (h1 : net.sendMessageResult net.sendLog.length = (requestText.length : Int))
    (h2 : net.sendMessageResult (net.sendLog.length + 1) =
      ((allText pid operatorGrid report).length : Int)) :
    (sendReport pid operatorGrid report net).2.sendLog =
      net.sendLog ++ [requestText, allText pid operatorGrid report] ∧
    (sendReport pid operatorGrid report net).2.bytesSince net.sendLog.length =
      "POST /post? HTTP/1.1\r\n".toList ++
        ("Connection: Keep-Alive\r\n".toList ++
          ("Host: wsprnet.org\r\n".toList ++
            ("Content-Type: application/x-www-form-urlencoded\r\n".toList ++
              ("Content-Length: ".toList ++
                (natText (contentText pid operatorGrid report).length ++
                  ("\r\n".toList ++ ("Accept-Language: en-US,*\r\n".toList ++
                    ("User-Agent: Mozilla/5.0\r\n".toList ++
                      ("\r\n".toList ++ contentText pid operatorGrid report))))))))) := by
  have e1 := sendMessageWithRetry_first_success requestText net (by decide) h1
  have e2 := sendMessageWithRetry_first_success (allText pid operatorGrid report)
    { net with sendLog := net.sendLog ++ [requestText],
               trace := net.trace ++ [Event.send requestText] } hlen
    (by simpa using h2)
  have hlog : (sendReport pid operatorGrid report net).2.sendLog =
      net.sendLog ++ [requestText, allText pid operatorGrid report] := by
    unfold sendReport
    simp only [e1, e2, Bool.not_true, Bool.false_eq_true, if_false]
    split_ifs
    · simp [(readResponseLoop_frame _).1]
    · simp [(readResponseLoop_frame _).1]
  refine ⟨hlog, ?_⟩
  unfold Net.bytesSince
  rw [hlog, List.drop_left, ← allText_shape]
  simp [requestText]

/-- A worked run of the request framing on the report of the specification's scenario, both
sends reporting the full length. -/
theorem sendReport_request_bytes_witness :
    ((allText examplePid "FN20".toList exampleReport).length < 2 ^ 63 ∧
      (scriptedNet (fun _ => .connected) (fun k => if k = 0 then 22 else 336)
        (fun _ => "OK".toList)).sendMessageResult
          (scriptedNet (fun _ => .connected) (fun k => if k = 0 then 22 else 336)
            (fun _ => "OK".toList)).sendLog.length = (requestText.length : Int) ∧
      (scriptedNet (fun _ => .connected) (fun k => if k = 0 then 22 else 336)
        (fun _ => "OK".toList)).sendMessageResult
          ((scriptedNet (fun _ => .connected) (fun k => if k = 0 then 22 else 336)
            (fun _ => "OK".toList)).sendLog.length + 1) =
        ((allText examplePid "FN20".toList exampleReport).length : Int)) ∧
    (sendReport examplePid "FN20".toList exampleReport
      (scriptedNet (fun _ => .connected) (fun k => if k = 0 then 22 else 336)
        (fun _ => "OK".toList))).2.bytesSince 0 =
      ("POST /post? HTTP/1.1\r\nConnection: Keep-Alive\r\nHost: wsprnet.org\r\n" ++
        "Content-Type: application/x-www-form-urlencoded\r\nContent-Length: 170\r\n" ++
        "Accept-Language: en-US,*\r\nUser-Agent: Mozilla/5.0\r\n\r\n" ++
        "function=wspr&rcall=W2AXR&rgrid=FN20&rqrg=7.040125&date=240229&time=1234&sig=-12" ++
        "&dt=0.30&drift=0&tcall=K1ABC&tgrid=FN42&tqrg=7.040100&dbm=23" ++
        "&version=CWSL_DIGI 0.88&mode=2").toList :=
  ⟨⟨by decide, by decide, by decide⟩,
   (sendReport_request_bytes examplePid "FN20".toList exampleReport
      (scriptedNet (fun _ => .connected) (fun k => if k = 0 then 22 else 336)
        (fun _ => "OK".toList)) (by decide) (by decide) (by decide)).2.trans (by decide)⟩

theorem sendMessageWithRetry_frame (message : Str) (net : Net) :
    (sendMessageWithRetry message net).2.connectOutcome = net.connectOutcome ∧
    (sendMessageWithRetry message net).2.closeStatus = net.closeStatus ∧
    (sendMessageWithRetry message net).2.connectCalls = net.connectCalls ∧
    (sendMessageWithRetry message net).2.closeCalls = net.closeCalls ∧
    (sendMessageWithRetry message net).2.openSockets = net.openSockets := by
  rw [sendMessageWithRetry_eq]
  split_ifs <;> exact ⟨rfl, rfl, rfl, rfl, rfl⟩

/-- `sendReport` neither connects nor closes: the connection script and the socket counts
are as before. -/
theorem sendReport_frame (pid : ProgramId) (operatorGrid : Str) (report : Report) (net : Net) :
    (sendReport pid operatorGrid report net).2.connectOutcome = net.connectOutcome ∧
    (sendReport pid operatorGrid report net).2.closeStatus = net.closeStatus ∧
    (sendReport pid operatorGrid report net).2.connectCalls = net.connectCalls ∧
    (sendReport pid operatorGrid report net).2.closeCalls = net.closeCalls ∧
    (sendReport pid operatorGrid report net).2.openSockets = net.openSockets := by
  obtain ⟨a1, a2, a3, a4, a5⟩ := sendMessageWithRetry_frame requestText net
  obtain ⟨b1, b2, b3, b4, b5⟩ := sendMessageWithRetry_frame (allText pid operatorGrid report)
    (sendMessageWithRetry requestText net).2
  obtain ⟨-, c1, c2, c3, c4, c5⟩ := readResponseLoop_frame
    (sendMessageWithRetry (allText pid operatorGrid report)
      (sendMessageWithRetry requestText net).2).2
  unfold sendReport
  dsimp only
  split_ifs
  · exact ⟨a1, a2, a3, a4, a5⟩
  · exact ⟨b1.trans a1, b2.trans a2, b3.trans a3, b4.trans a4, b5.trans a5⟩
  · exact ⟨c1.trans (b1.trans a1), c2.trans (b2.trans a2), c3.trans (b3.trans a3),
      c4.trans (b4.trans a4), c5.trans (b5.trans a5)⟩
  · exact ⟨c1.trans (b1.trans a1), c2.trans (b2.trans a2), c3.trans (b3.trans a3),
      c4.trans (b4.trans a4), c5.trans (b5.trans a5)⟩

theorem atomicIncr_of_lt (c : Int) (h0 : -(2 : Int) ^ 31 ≤ c) (h1 : c < 2 ^ 31 - 1) :
    atomicIncr c = c + 1 := by
  unfold atomicIncr
  omega

theorem sendReportWrapper_fields (pid : ProgramId) (w : WSPRNet) (report : Report) :
    (w.sendReportWrapper pid report).mReports = w.mReports ∧
    (w.sendReportWrapper pid report).operatorGrid = w.operatorGrid ∧
    (w.sendReportWrapper pid report).net =
      (sendReport pid w.operatorGrid report w.net).2 ∧
    ((sendReport pid w.operatorGrid report w.net).1 = true →
      (w.sendReportWrapper pid report).mCountSendsOK = atomicIncr w.mCountSendsOK ∧
      (w.sendReportWrapper pid report).mCountSendsErrored = w.mCountSendsErrored) ∧
    ((sendReport pid w.operatorGrid report w.net).1 = false →
      (w.sendReportWrapper pid report).mCountSendsOK = w.mCountSendsOK ∧
      (w.sendReportWrapper pid report).mCountSendsErrored =
        atomicIncr w.mCountSendsErrored) := by
  unfold WSPRNet.sendReportWrapper
  cases h : (sendReport pid w.operatorGrid report w.net).1 <;> simp [h]

theorem drainIteration_nil (pid : ProgramId) (w : WSPRNet) (hq : w.mReports = []) :
    w.drainIteration pid = w := by
  unfold WSPRNet.drainIteration
  rw [hq]

theorem drainIteration_cons_failed (pid : ProgramId) (w : WSPRNet) (report : Report)
    (rest : List Report) (hq : w.mReports = report :: rest)
    (hc : w.net.connectSocket.1 = false) :
    w.drainIteration pid = { w with net := w.net.connectSocket.2 } := by
  unfold WSPRNet.drainIteration
  rw [hq]
  simp only [hc, Bool.not_false, if_true]

theorem drainIteration_cons_connected (pid : ProgramId) (w : WSPRNet) (report : Report)
    (rest : List Report) (hq : w.mReports = report :: rest)
    (hc : w.net.connectSocket.1 = true) :
    w.drainIteration pid =
      { WSPRNet.sendReportWrapper pid
          { w with mReports := rest,
                   net := w.net.connectSocket.2.record (Event.dequeue report) } report with
        net := (WSPRNet.sendReportWrapper pid
          { w with mReports := rest,
                   net := w.net.connectSocket.2.record (Event.dequeue report) }
          report).net.closeSocket.2 } := by
  unfold WSPRNet.drainIteration
  rw [hq]
  simp only [hc, Bool.not_true, Bool.false_eq_true, if_false]

/-- One iteration of the drain loop, counters and queue: nothing changes, or the head of the
queue is removed and exactly one counter goes up by one. -/
theorem drainIteration_counters (pid : ProgramId) (w : WSPRNet)
    (hlo : -(2 : Int) ^ 31 ≤ w.mCountSendsOK ∧ -(2 : Int) ^ 31 ≤ w.mCountSendsErrored)
    (hok : w.mCountSendsOK + (w.mReports.length : Int) < 2 ^ 31 - 1)
    (herr : w.mCountSendsErrored + (w.mReports.length : Int) < 2 ^ 31 - 1) :
    w.mCountSendsOK ≤ (w.drainIteration pid).mCountSendsOK ∧
    w.mCountSendsErrored ≤ (w.drainIteration pid).mCountSendsErrored ∧
    (w.drainIteration pid).mCountSendsOK + (w.drainIteration pid).mCountSendsErrored +
      ((w.drainIteration pid).mReports.length : Int) =
      w.mCountSendsOK + w.mCountSendsErrored + (w.mReports.length : Int) := by
  obtain ⟨hlo1, hlo2⟩ := hlo
  cases hq : w.mReports with
  | nil =>
    rw [drainIteration_nil pid w hq]
    exact ⟨le_refl _, le_refl _, by rw [hq]⟩
  | cons report rest =>
    have hl : (w.mReports.length : Int) = (rest.length : Int) + 1 := by
      rw [hq]; simp
    cases hc : w.net.connectSocket.1 with
    | false =>
      rw [drainIteration_cons_failed pid w report rest hq hc]
      exact ⟨le_refl _, le_refl _, by rw [hq]⟩
    | true =>
      rw [drainIteration_cons_connected pid w report rest hq hc]
      obtain ⟨f1, -, -, f4, f5⟩ := sendReportWrapper_fields pid
        { w with mReports := rest, net := w.net.connectSocket.2.record (Event.dequeue report) }
        report
      dsimp only at f1 f4 f5 ⊢
      rw [f1]
      cases hs : (sendReport pid w.operatorGrid report
        (w.net.connectSocket.2.record (Event.dequeue report))).1
      · obtain ⟨g1, g2⟩ := f5 hs
        rw [g1, g2, atomicIncr_of_lt _ (by omega) (by omega)]
        simp only [List.length_cons, Nat.cast_add, Nat.cast_one]
        omega
      · obtain ⟨g1, g2⟩ := f4 hs
        rw [g1, g2, atomicIncr_of_lt _ (by omega) (by omega)]
        simp only [List.length_cons, Nat.cast_add, Nat.cast_one]
        omega

theorem iterate_drainIteration_counters (pid : ProgramId) :
    ∀ (k : Nat) (w : WSPRNet),
      (-(2 : Int) ^ 31 ≤ w.mCountSendsOK ∧ -(2 : Int) ^ 31 ≤ w.mCountSendsErrored) →
      w.mCountSendsOK + (w.mReports.length : Int) < 2 ^ 31 - 1 →
      w.mCountSendsErrored + (w.mReports.length : Int) < 2 ^ 31 - 1 →
      w.mCountSendsOK ≤ ((WSPRNet.drainIteration pid)^[k] w).mCountSendsOK ∧
      w.mCountSendsErrored ≤ ((WSPRNet.drainIteration pid)^[k] w).mCountSendsErrored ∧
      ((WSPRNet.drainIteration pid)^[k] w).mCountSendsOK +
        ((WSPRNet.drainIteration pid)^[k] w).mCountSendsErrored +
        (((WSPRNet.drainIteration pid)^[k] w).mReports.length : Int) =
        w.mCountSendsOK + w.mCountSendsErrored + (w.mReports.length : Int) := by
  intro k
  induction k with
  | zero => intro w _ _ _; exact ⟨le_refl _, le_refl _, rfl⟩
  | succ k ih =>
    intro w hlo hok herr
    obtain ⟨s1, s2, s3⟩ := drainIteration_counters pid w hlo hok herr
    obtain ⟨i1, i2, i3⟩ := ih (w.drainIteration pid) ⟨by omega, by omega⟩ (by omega) (by omega)
    rw [Function.iterate_succ_apply]
    exact ⟨by omega, by omega, by omega⟩

/-- C11 (as amended).  The counters are `std::atomic_int`, held here as integers of the
32-bit range (`hlo`).  As long as each counter plus the number of reports still queued is
below `INT_MAX` = `2^31 - 1`, one call of `sendReportWrapper` raises `mCountSendsOK` by
exactly 1 and leaves `mCountSendsErrored` alone when `sendReport` returned `true`, and the
other way round when it returned `false`; hence over any number of iterations of the drain
loop neither counter decreases and the sum of the two counters grows by exactly the number
of reports taken off the queue. -/
theorem sendReportWrapper_counters (pid : ProgramId) (w : WSPRNet) (report : Report)
    (hlo : -(2 : Int) ^ 31 ≤ w.mCountSendsOK ∧ -(2 : Int) ^ 31 ≤ w.mCountSendsErrored)
    (hok : w.mCountSendsOK + (w.mReports.length : Int) < 2 ^ 31 - 1)
    (herr : w.mCountSendsErrored + (w.mReports.length : Int) < 2 ^ 31 - 1) :
    ((sendReport pid w.operatorGrid report w.net).1 = true →
      (w.sendReportWrapper pid report).mCountSendsOK = w.mCountSendsOK + 1 ∧
      (w.sendReportWrapper pid report).mCountSendsErrored = w.mCountSendsErrored) ∧
    ((sendReport pid w.operatorGrid report w.net).1 = false →
      (w.sendReportWrapper pid report).mCountSendsOK = w.mCountSendsOK ∧
      (w.sendReportWrapper pid report).mCountSendsErrored = w.mCountSendsErrored + 1) ∧
    ∀ k, w.mCountSendsOK ≤ ((WSPRNet.drainIteration pid)^[k] w).mCountSendsOK ∧
      w.mCountSendsErrored ≤ ((WSPRNet.drainIteration pid)^[k] w).mCountSendsErrored ∧
      ((WSPRNet.drainIteration pid)^[k] w).mCountSendsOK +
        ((WSPRNet.drainIteration pid)^[k] w).mCountSendsErrored +
        (((WSPRNet.drainIteration pid)^[k] w).mReports.length : Int) =
        w.mCountSendsOK + w.mCountSendsErrored + (w.mReports.length : Int) := by
  obtain ⟨-, -, -, f4, f5⟩ := sendReportWrapper_fields pid w report
  obtain ⟨hlo1, hlo2⟩ := hlo
  refine ⟨fun h => ?_, fun h => ?_,
    fun k => iterate_drainIteration_counters pid k w ⟨hlo1, hlo2⟩ hok herr⟩
  · obtain ⟨g1, g2⟩ := f4 h
    rw [g1, g2, atomicIncr_of_lt _ (by omega) (by omega)]
    exact ⟨rfl, rfl⟩
  · obtain ⟨g1, g2⟩ := f5 h
    rw [g1, g2, atomicIncr_of_lt _ (by omega) (by omega)]
    exact ⟨rfl, rfl⟩

/-- A worked run of the counters: two queued reports, the first delivered and answered, the
second failing at its first send; after two iterations the counters read 1 and 1 and the
queue is empty. -/
theorem sendReportWrapper_counters_witness :
    ((-(2 : Int) ^ 31 ≤ exampleTwoReports.mCountSendsOK ∧
        -(2 : Int) ^ 31 ≤ exampleTwoReports.mCountSendsErrored) ∧
      exampleTwoReports.mCountSendsOK + (exampleTwoReports.mReports.length : Int) <
        2 ^ 31 - 1 ∧
      exampleTwoReports.mCountSendsErrored + (exampleTwoReports.mReports.length : Int) <
        2 ^ 31 - 1) ∧
    (((WSPRNet.drainIteration examplePid)^[2] exampleTwoReports).mCountSendsOK +
      ((WSPRNet.drainIteration examplePid)^[2] exampleTwoReports).mCountSendsErrored +
      (((WSPRNet.drainIteration examplePid)^[2] exampleTwoReports).mReports.length : Int) =
        exampleTwoReports.mCountSendsOK + exampleTwoReports.mCountSendsErrored +
          (exampleTwoReports.mReports.length : Int)) ∧
    ((WSPRNet.drainIteration examplePid)^[2] exampleTwoReports).mCountSendsOK = 1 ∧
    ((WSPRNet.drainIteration examplePid)^[2] exampleTwoReports).mCountSendsErrored = 1 ∧
    ((WSPRNet.drainIteration examplePid)^[2] exampleTwoReports).mReports = [] :=
  ⟨⟨by decide, by decide, by decide⟩,
   ((sendReportWrapper_counters examplePid exampleTwoReports exampleReport
      (by decide) (by decide) (by decide)).2.2 2).2.2,
   by decide, by decide, by decide⟩

/-- C11 fails as stated.  `mCountSendsOK` stands at `INT_MAX` = 2147483647 and the report is
delivered and answered, so `sendReport` returns `true`; the increment of the
`std::atomic_int` wraps and `sendReportWrapper` leaves `mCountSendsOK` at -2147483648: the
counter has not gone up by 1, it has decreased, and so it has after one iteration of the
drain loop. -/
theorem sendReportWrapper_counter_wraps_counterexample :
    exampleSaturated.mCountSendsOK = 2147483647 ∧
    (sendReport examplePid exampleSaturated.operatorGrid exampleReport
      exampleSaturated.net).1 = true ∧
    (exampleSaturated.sendReportWrapper examplePid exampleReport).mCountSendsOK =
      -2147483648 ∧
    (exampleSaturated.sendReportWrapper examplePid exampleReport).mCountSendsOK ≠
      exampleSaturated.mCountSendsOK + 1 ∧
    (exampleSaturated.sendReportWrapper examplePid exampleReport).mCountSendsOK <
      exampleSaturated.mCountSendsOK ∧
    (WSPRNet.drainIteration examplePid exampleSaturated).mCountSendsOK <
      exampleSaturated.mCountSendsOK := by
  decide

/-! ### The drain loop on a transport that always connects -/

theorem connectSocket_of_connected (net : Net)
    (h : net.connectOutcome net.connectCalls = ConnectOutcome.connected) :
    net.connectSocket.1 = true ∧
      net.connectSocket.2 =
        { net with connectCalls := net.connectCalls + 1, openSockets := net.openSockets + 1,
                   trace := net.trace ++ [Event.connect ConnectOutcome.connected] } := by
  unfold Net.connectSocket
  rw [h]
  exact ⟨rfl, rfl⟩

theorem sendReportWrapper_with_queue (pid : ProgramId) (w : WSPRNet) (q : List Report)
    (n : Net) (report : Report) :
    WSPRNet.sendReportWrapper pid { w with mReports := q, net := n } report =
      { WSPRNet.sendReportWrapper pid { w with net := n } report with mReports := q } := by
  unfold WSPRNet.sendReportWrapper
  dsimp only
  split_ifs <;> rfl

theorem deliver_with_queue (pid : ProgramId) (w : WSPRNet) (q : List Report) (report : Report) :
    WSPRNet.deliver pid { w with mReports := q } report =
      { WSPRNet.deliver pid w report with mReports := q } := by
  unfold WSPRNet.deliver
  dsimp only
  rw [sendReportWrapper_with_queue]

theorem foldl_deliver_with_queue (pid : ProgramId) (q : List Report) :
    ∀ (l : List Report) (w : WSPRNet),
      l.foldl (WSPRNet.deliver pid) { w with mReports := q } =
        { l.foldl (WSPRNet.deliver pid) w with mReports := q } := by
  intro l
  induction l with
  | nil => intro w; rfl
  | cons r rest ih =>
    intro w
    simp only [List.foldl_cons, deliver_with_queue, ih]

theorem drainIteration_eq_deliver (pid : ProgramId) (w : WSPRNet) (report : Report)
    (rest : List Report) (hq : w.mReports = report :: rest)
    (hc : w.net.connectOutcome w.net.connectCalls = ConnectOutcome.connected) :
    w.drainIteration pid = { WSPRNet.deliver pid w report with mReports := rest } := by
  rw [drainIteration_cons_connected pid w report rest hq (connectSocket_of_connected _ hc).1,
    sendReportWrapper_with_queue]
  rfl

/-- What one delivery does to the connection bookkeeping: one more connect, one more close,
scripts unchanged; with a connect and a close that succeed, one socket is open during
`sendReport` and the count is back where it was afterwards. -/
theorem deliver_net (pid : ProgramId) (w : WSPRNet) (report : Report) :
    (WSPRNet.deliver pid w report).net.connectOutcome = w.net.connectOutcome ∧
    (WSPRNet.deliver pid w report).net.closeStatus = w.net.closeStatus ∧
    (WSPRNet.deliver pid w report).net.connectCalls = w.net.connectCalls + 1 ∧
    (WSPRNet.deliver pid w report).net.closeCalls = w.net.closeCalls + 1 ∧
    (WSPRNet.deliver pid w report).mReports = w.mReports ∧
    (WSPRNet.deliver pid w report).operatorGrid = w.operatorGrid ∧
    (w.net.connectOutcome w.net.connectCalls = ConnectOutcome.connected →
      (sendReport pid w.operatorGrid report
        (w.net.connectSocket.2.record (Event.dequeue report))).2.openSockets =
        w.net.openSockets + 1 ∧
      (w.net.closeStatus w.net.closeCalls = 0 →
        (WSPRNet.deliver pid w report).net.openSockets = w.net.openSockets)) := by
  obtain ⟨f1, f2, f3, -, -⟩ := sendReportWrapper_fields pid
    { w with net := w.net.connectSocket.2.record (Event.dequeue report) } report
  obtain ⟨g1, g2, g3, g4, g5⟩ := sendReport_frame pid w.operatorGrid report
    (w.net.connectSocket.2.record (Event.dequeue report))
  dsimp only at f1 f2 f3
  have c1 : (w.net.connectSocket.2.record (Event.dequeue report)).connectOutcome =
      w.net.connectOutcome := by
    unfold Net.connectSocket; split <;> rfl
  have c2 : (w.net.connectSocket.2.record (Event.dequeue report)).closeStatus =
      w.net.closeStatus := by
    unfold Net.connectSocket; split <;> rfl
  have c3 : (w.net.connectSocket.2.record (Event.dequeue report)).connectCalls =
      w.net.connectCalls + 1 := by
    unfold Net.connectSocket; split <;> rfl
  have c4 : (w.net.connectSocket.2.record (Event.dequeue report)).closeCalls =
      w.net.closeCalls := by
    unfold Net.connectSocket; split <;> rfl
  have k : ∀ n : Net, n.closeSocket.2.connectOutcome = n.connectOutcome ∧
      n.closeSocket.2.closeStatus = n.closeStatus ∧
      n.closeSocket.2.connectCalls = n.connectCalls ∧
      n.closeSocket.2.closeCalls = n.closeCalls + 1 ∧
      (n.closeStatus n.closeCalls = 0 → n.closeSocket.2.openSockets = n.openSockets - 1) := by
    intro n
    unfold Net.closeSocket
    split_ifs with h
    · exact ⟨rfl, rfl, rfl, rfl, fun h0 => absurd h0 h⟩
    · exact ⟨rfl, rfl, rfl, rfl, fun _ => rfl⟩
  obtain ⟨k1, k2, k3, k4, k5⟩ := k (sendReport pid w.operatorGrid report
    (w.net.connectSocket.2.record (Event.dequeue report))).2
  unfold WSPRNet.deliver
  dsimp only
  rw [f3]
  refine ⟨by rw [k1, g1, c1], by rw [k2, g2, c2], by rw [k3, g3, c3], by rw [k4, g4, c4],
    f1, f2, ?_⟩
  intro hc
  have ho : (w.net.connectSocket.2.record (Event.dequeue report)).openSockets =
      w.net.openSockets + 1 := by
    rw [(connectSocket_of_connected _ hc).2]
    rfl
  refine ⟨by rw [g5, ho], fun h0 => ?_⟩
  rw [k5 (by rw [g2, g4, c2, c4]; exact h0), g5, ho]
  omega

/-- The trace of `sendMessageWithRetry`: one to three calls of `sendMessage`. -/
theorem sendMessageWithRetry_trace (message : Str) (net : Net) :
    ∃ k, (sendMessageWithRetry message net).2.trace =
      net.trace ++ Event.send message :: List.replicate k (Event.send message) := by
  rw [sendMessageWithRetry_eq]
  split_ifs
  · exact ⟨0, rfl⟩
  · exact ⟨0, rfl⟩
  · exact ⟨1, rfl⟩
  · exact ⟨1, rfl⟩
  · exact ⟨2, rfl⟩
  · exact ⟨2, rfl⟩

/-- The trace of the response loop: calls of `readMessage` only. -/
theorem readResponseLoop_trace (net : Net) :
    ∃ k, (readResponseLoop 4 0 [] net).2.2.trace = net.trace ++ List.replicate k Event.read := by
  rw [readResponseLoop_eq]
  split_ifs
  · exact ⟨1, rfl⟩
  · exact ⟨2, rfl⟩
  · exact ⟨3, rfl⟩
  · exact ⟨4, rfl⟩

/-- The trace of `sendReport`: it starts with the call `sendMessage(request)` and holds
calls of `sendMessage` and `readMessage` only. -/
theorem sendReport_trace (pid : ProgramId) (operatorGrid : Str) (report : Report) (net : Net) :
    ∃ mid, (∀ e ∈ mid, Event.isTransfer e = true) ∧
      (sendReport pid operatorGrid report net).2.trace =
        net.trace ++ Event.send requestText :: mid := by
  obtain ⟨k1, h1⟩ := sendMessageWithRetry_trace requestText net
  obtain ⟨k2, h2⟩ := sendMessageWithRetry_trace (allText pid operatorGrid report)
    (sendMessageWithRetry requestText net).2
  obtain ⟨k3, h3⟩ := readResponseLoop_trace
    (sendMessageWithRetry (allText pid operatorGrid report)
      (sendMessageWithRetry requestText net).2).2
  have m1 : ∀ e ∈ List.replicate k1 (Event.send requestText), Event.isTransfer e = true := by
    intro e he
    rw [List.eq_of_mem_replicate he]
    rfl
  have m2 : ∀ e ∈ Event.send (allText pid operatorGrid report) ::
      List.replicate k2 (Event.send (allText pid operatorGrid report)),
      Event.isTransfer e = true := by
    intro e he
    rcases List.mem_cons.mp he with h | h
    · rw [h]; rfl
    · rw [List.eq_of_mem_replicate h]; rfl
  have m3 : ∀ e ∈ List.replicate k3 Event.read, Event.isTransfer e = true := by
    intro e he
    rw [List.eq_of_mem_replicate he]
    rfl
  unfold sendReport
  dsimp only
  split_ifs
  · exact ⟨_, m1, h1⟩
  · refine ⟨List.replicate k1 (Event.send requestText) ++
      (Event.send (allText pid operatorGrid report) ::
        List.replicate k2 (Event.send (allText pid operatorGrid report))), ?_, ?_⟩
    · intro e he
      rcases List.mem_append.mp he with h | h
      · exact m1 e h
      · exact m2 e h
    · rw [h2, h1]
      simp only [List.append_assoc, List.cons_append]
  · refine ⟨List.replicate k1 (Event.send requestText) ++
      ((Event.send (allText pid operatorGrid report) ::
        List.replicate k2 (Event.send (allText pid operatorGrid report))) ++
        List.replicate k3 Event.read), ?_, ?_⟩
    · intro e he
      rcases List.mem_append.mp he with h | h
      · exact m1 e h
      · rcases List.mem_append.mp h with h | h
        · exact m2 e h
        · exact m3 e h
    · rw [h3, h2, h1]
      simp only [List.append_assoc, List.cons_append]
  · refine ⟨List.replicate k1 (Event.send requestText) ++
      ((Event.send (allText pid operatorGrid report) ::
        List.replicate k2 (Event.send (allText pid operatorGrid report))) ++
        List.replicate k3 Event.read), ?_, ?_⟩
    · intro e he
      rcases List.mem_append.mp he with h | h
      · exact m1 e h
      · rcases List.mem_append.mp h with h | h
        · exact m2 e h
        · exact m3 e h
    · rw [h3, h2, h1]
      simp only [List.append_assoc, List.cons_append]

/-- The trace of one delivery on a transport that connects: the connect, the dequeue of the
report, the calls of `sendReport` for it, and the close, in this order. -/
theorem deliver_trace (pid : ProgramId) (w : WSPRNet) (report : Report)
    (hc : w.net.connectOutcome w.net.connectCalls = ConnectOutcome.connected) :
    ∃ mid, (∀ e ∈ mid, Event.isTransfer e = true) ∧
      (sendReport pid w.operatorGrid report
        (w.net.connectSocket.2.record (Event.dequeue report))).2.trace =
        w.net.trace ++ [Event.connect ConnectOutcome.connected, Event.dequeue report,
          Event.send requestText] ++ mid ∧
      (WSPRNet.deliver pid w report).net.trace =
        w.net.trace ++ [Event.connect ConnectOutcome.connected, Event.dequeue report,
          Event.send requestText] ++ mid ++ [Event.close (w.net.closeStatus w.net.closeCalls)] := by
  obtain ⟨mid, hm, ht⟩ := sendReport_trace pid w.operatorGrid report
    (w.net.connectSocket.2.record (Event.dequeue report))
  obtain ⟨-, -, f3, -, -⟩ := sendReportWrapper_fields pid
    { w with net := w.net.connectSocket.2.record (Event.dequeue report) } report
  obtain ⟨-, g2, -, g4, -⟩ := sendReport_frame pid w.operatorGrid report
    (w.net.connectSocket.2.record (Event.dequeue report))
  dsimp only at f3
  have t0 : (w.net.connectSocket.2.record (Event.dequeue report)).trace =
      w.net.trace ++ [Event.connect ConnectOutcome.connected, Event.dequeue report] := by
    rw [(connectSocket_of_connected _ hc).2]
    simp only [Net.record, List.append_assoc, List.singleton_append]
  have c2 : (w.net.connectSocket.2.record (Event.dequeue report)).closeStatus =
      w.net.closeStatus := by
    unfold Net.connectSocket; split <;> rfl
  have c4 : (w.net.connectSocket.2.record (Event.dequeue report)).closeCalls =
      w.net.closeCalls := by
    unfold Net.connectSocket; split <;> rfl
  have k : ∀ n : Net, n.closeSocket.2.trace =
      n.trace ++ [Event.close (n.closeStatus n.closeCalls)] := by
    intro n
    unfold Net.closeSocket
    split_ifs <;> rfl
  have ht' : (sendReport pid w.operatorGrid report
      (w.net.connectSocket.2.record (Event.dequeue report))).2.trace =
      w.net.trace ++ [Event.connect ConnectOutcome.connected, Event.dequeue report,
        Event.send requestText] ++ mid := by
    rw [ht, t0]
    simp only [List.append_assoc, List.cons_append, List.nil_append]
  refine ⟨mid, hm, ht', ?_⟩
  unfold WSPRNet.deliver
  dsimp only
  rw [f3, k, ht', g2, g4, c2, c4]

theorem foldl_deliver_net (pid : ProgramId) :
    ∀ (l : List Report) (w : WSPRNet),
      (l.foldl (WSPRNet.deliver pid) w).net.connectOutcome = w.net.connectOutcome ∧
      (l.foldl (WSPRNet.deliver pid) w).net.closeStatus = w.net.closeStatus ∧
      (l.foldl (WSPRNet.deliver pid) w).net.connectCalls = w.net.connectCalls + l.length ∧
      (l.foldl (WSPRNet.deliver pid) w).net.closeCalls = w.net.closeCalls + l.length ∧
      (l.foldl (WSPRNet.deliver pid) w).mReports = w.mReports ∧
      (l.foldl (WSPRNet.deliver pid) w).operatorGrid = w.operatorGrid ∧
      ((∀ k, w.net.connectOutcome k = ConnectOutcome.connected) →
        (∀ k, w.net.closeStatus k = 0) →
        (l.foldl (WSPRNet.deliver pid) w).net.openSockets = w.net.openSockets) := by
  intro l
  induction l with
  | nil => intro w; exact ⟨rfl, rfl, rfl, rfl, rfl, rfl, fun _ _ => rfl⟩
  | cons r rest ih =>
    intro w
    obtain ⟨d1, d2, d3, d4, d5, d6, d7⟩ := deliver_net pid w r
    obtain ⟨i1, i2, i3, i4, i5, i6, i7⟩ := ih (WSPRNet.deliver pid w r)
    simp only [List.foldl_cons, List.length_cons]
    refine ⟨i1.trans d1, i2.trans d2, by rw [i3, d3]; omega, by rw [i4, d4]; omega,
      i5.trans d5, i6.trans d6, fun hc hz => ?_⟩
    rw [i7 (by rw [d1]; exact hc) (by rw [d2]; exact hz)]
    exact (d7 (hc _)).2 (hz _)

theorem iterate_drainIteration_eq_foldl (pid : ProgramId) :
    ∀ (i : Nat) (w : WSPRNet), (∀ k, w.net.connectOutcome k = ConnectOutcome.connected) →
      i ≤ w.mReports.length →
      (WSPRNet.drainIteration pid)^[i] w =
        { (w.mReports.take i).foldl (WSPRNet.deliver pid) w with
          mReports := w.mReports.drop i } := by
  intro i
  induction i with
  | zero => intro w _ _; rfl
  | succ i ih =>
    intro w hc hi
    cases hq : w.mReports with
    | nil => rw [hq] at hi; simp at hi
    | cons r rest =>
      have hstep := drainIteration_eq_deliver pid w r rest hq (hc _)
      have hc1 : ∀ k, (w.drainIteration pid).net.connectOutcome k =
          ConnectOutcome.connected := by
        intro k
        rw [hstep]
        dsimp only
        rw [(deliver_net pid w r).1]
        exact hc k
      have hlen : i ≤ (w.drainIteration pid).mReports.length := by
        rw [hstep]
        rw [hq] at hi
        simpa using hi
      rw [Function.iterate_succ_apply, ih _ hc1 hlen, hstep]
      dsimp only
      rw [foldl_deliver_with_queue]
      simp only [List.take_succ_cons, List.drop_succ_cons, List.foldl_cons]

theorem drainLoop_all_connected (pid : ProgramId) :
    ∀ (queue : List Report) (extra : Nat) (w : WSPRNet), w.mReports = queue →
      (∀ k, w.net.connectOutcome k = ConnectOutcome.connected) →
      WSPRNet.drainLoop pid (queue.length + extra) w =
        some { queue.foldl (WSPRNet.deliver pid) w with mReports := [] } := by
  intro queue
  induction queue with
  | nil =>
    intro extra w hq _
    have : w = { w with mReports := [] } := by
      cases w
      simp only at hq
      subst hq
      rfl
    cases extra <;> simp [WSPRNet.drainLoop, hq, List.foldl_nil] <;> exact this
  | cons r rest ih =>
    intro extra w hq hc
    have hstep := drainIteration_eq_deliver pid w r rest hq (hc _)
    have hfuel : (r :: rest).length + extra = (rest.length + extra) + 1 := by
      simp only [List.length_cons]; omega
    rw [hfuel]
    simp only [WSPRNet.drainLoop, hq, List.isEmpty_cons, Bool.false_eq_true, if_false]
    have hq1 : (w.drainIteration pid).mReports = rest := by rw [hstep]
    have hc1 : ∀ k, (w.drainIteration pid).net.connectOutcome k =
        ConnectOutcome.connected := by
      intro k
      rw [hstep]
      dsimp only
      rw [(deliver_net pid w r).1]
      exact hc k
    rw [ih extra (w.drainIteration pid) hq1 hc1, hstep, foldl_deliver_with_queue]
    simp only [List.foldl_cons]

/-- C12 (as amended).  For every queue `r1..rn` and every transport on which each connection
attempt succeeds: the drain loop ends after `n` iterations with an empty queue, whatever
`sendReport` returns; after `i` iterations exactly the first `i` reports have been dequeued
and exactly `i` connects and `i` closes have been made; iteration `i + 1` appends to the
trace, in this order, the connect, the dequeue of `ri+1`, the calls of `sendMessage` and
`readMessage` made by `sendReport` for `ri+1` (the first being the request line) and the
close, and nothing else; and, when in addition every `closesocket` succeeds, the number of
open sockets is the initial one between deliveries and one more while a report is being
sent, so that there is never a second connection open. -/
theorem drainLoop_fifo (pid : ProgramId) (w : WSPRNet)
    (hc : ∀ k, w.net.connectOutcome k = ConnectOutcome.connected) :
    (∀ extra, WSPRNet.drainLoop pid (w.mReports.length + extra) w =
        some ((WSPRNet.drainIteration pid)^[w.mReports.length] w) ∧
      WSPRNet.drainLoop pid (w.mReports.length + extra) w =
        some { w.mReports.foldl (WSPRNet.deliver pid) w with mReports := [] }) ∧
    (∀ i, i ≤ w.mReports.length →
      (WSPRNet.drainIteration pid)^[i] w =
        { (w.mReports.take i).foldl (WSPRNet.deliver pid) w with
          mReports := w.mReports.drop i } ∧
      ((WSPRNet.drainIteration pid)^[i] w).mReports = w.mReports.drop i ∧
      ((WSPRNet.drainIteration pid)^[i] w).net.connectCalls = w.net.connectCalls + i ∧
      ((WSPRNet.drainIteration pid)^[i] w).net.closeCalls = w.net.closeCalls + i) ∧
    (∀ i r, w.mReports[i]? = some r →
      ∃ mid, (∀ e ∈ mid, Event.isTransfer e = true) ∧
        (sendReport pid w.operatorGrid r
          (((WSPRNet.drainIteration pid)^[i] w).net.connectSocket.2.record
            (Event.dequeue r))).2.trace =
          ((WSPRNet.drainIteration pid)^[i] w).net.trace ++
            [Event.connect ConnectOutcome.connected, Event.dequeue r,
              Event.send requestText] ++ mid ∧
        ((WSPRNet.drainIteration pid)^[i + 1] w).net.trace =
          ((WSPRNet.drainIteration pid)^[i] w).net.trace ++
            [Event.connect ConnectOutcome.connected, Event.dequeue r,
              Event.send requestText] ++ mid ++
            [Event.close (w.net.closeStatus (w.net.closeCalls + i))]) ∧
    ((∀ k, w.net.closeStatus k = 0) → ∀ i r, w.mReports[i]? = some r →
      ((WSPRNet.drainIteration pid)^[i] w).net.openSockets = w.net.openSockets ∧
      ((WSPRNet.drainIteration pid)^[i] w).net.connectSocket.2.openSockets =
        w.net.openSockets + 1 ∧
      (sendReport pid w.operatorGrid r
        (((WSPRNet.drainIteration pid)^[i] w).net.connectSocket.2.record
          (Event.dequeue r))).2.openSockets = w.net.openSockets + 1 ∧
      ((WSPRNet.drainIteration pid)^[i + 1] w).net.openSockets = w.net.openSockets) := by
  refine ⟨fun extra => ?_, ?_, ?_, ?_⟩
  · have h := iterate_drainIteration_eq_foldl pid w.mReports.length w hc (le_refl _)
    rw [List.take_length, List.drop_length] at h
    have hd := drainLoop_all_connected pid w.mReports extra w rfl hc
    exact ⟨by rw [hd, h], hd⟩
  · intro i hi
    have h := iterate_drainIteration_eq_foldl pid i w hc hi
    obtain ⟨-, -, f3, f4, -, -, -⟩ := foldl_deliver_net pid (w.mReports.take i) w
    have hl : (w.mReports.take i).length = i := by
      rw [List.length_take]; omega
    refine ⟨h, by rw [h], by rw [h]; dsimp only; rw [f3, hl], by rw [h]; dsimp only; rw [f4, hl]⟩
  · intro i r hr
    have hi : i < w.mReports.length := (List.getElem?_eq_some_iff.mp hr).1
    have hri : w.mReports[i] = r := (List.getElem?_eq_some_iff.mp hr).2
    have h := iterate_drainIteration_eq_foldl pid i w hc (le_of_lt hi)
    obtain ⟨f1, f2, -, f4, -, f6, -⟩ := foldl_deliver_net pid (w.mReports.take i) w
    have hl : (w.mReports.take i).length = i := by
      rw [List.length_take]; omega
    have hq : ((WSPRNet.drainIteration pid)^[i] w).mReports = r :: w.mReports.drop (i + 1) := by
      rw [h]
      dsimp only
      rw [List.drop_eq_getElem_cons hi, hri]
    have hconn : ((WSPRNet.drainIteration pid)^[i] w).net.connectOutcome
        ((WSPRNet.drainIteration pid)^[i] w).net.connectCalls = ConnectOutcome.connected := by
      rw [h]; dsimp only; rw [f1]; exact hc _
    have hgrid : ((WSPRNet.drainIteration pid)^[i] w).operatorGrid = w.operatorGrid := by
      rw [h]; exact f6
    have hcs : ((WSPRNet.drainIteration pid)^[i] w).net.closeStatus = w.net.closeStatus := by
      rw [h]; exact f2
    have hcc : ((WSPRNet.drainIteration pid)^[i] w).net.closeCalls = w.net.closeCalls + i := by
      rw [h]; dsimp only; rw [f4, hl]
    have hstep := drainIteration_eq_deliver pid ((WSPRNet.drainIteration pid)^[i] w) r
      (w.mReports.drop (i + 1)) hq hconn
    obtain ⟨mid, hm, t1, t2⟩ := deliver_trace pid ((WSPRNet.drainIteration pid)^[i] w) r hconn
    rw [hgrid] at t1
    rw [hcs, hcc] at t2
    refine ⟨mid, hm, t1, ?_⟩
    rw [Function.iterate_succ_apply', hstep]
    exact t2
  · intro hz i r hr
    have hi : i < w.mReports.length := (List.getElem?_eq_some_iff.mp hr).1
    have h := iterate_drainIteration_eq_foldl pid i w hc (le_of_lt hi)
    have h' := iterate_drainIteration_eq_foldl pid (i + 1) w hc hi
    obtain ⟨f1, f2, -, -, -, -, f7⟩ := foldl_deliver_net pid (w.mReports.take i) w
    obtain ⟨-, -, -, -, -, -, g7⟩ := foldl_deliver_net pid (w.mReports.take (i + 1)) w
    have hopen : ((WSPRNet.drainIteration pid)^[i] w).net.openSockets = w.net.openSockets := by
      rw [h]; exact f7 hc hz
    have hconn : ((WSPRNet.drainIteration pid)^[i] w).net.connectOutcome
        ((WSPRNet.drainIteration pid)^[i] w).net.connectCalls = ConnectOutcome.connected := by
      rw [h]; dsimp only; rw [f1]; exact hc _
    have hcs := (connectSocket_of_connected _ hconn).2
    have hco : ((WSPRNet.drainIteration pid)^[i] w).net.connectSocket.2.openSockets =
        w.net.openSockets + 1 := by
      rw [hcs]; dsimp only; rw [hopen]
    refine ⟨hopen, hco, ?_, ?_⟩
    · rw [(sendReport_frame pid w.operatorGrid r _).2.2.2.2]
      exact hco
    · rw [h']; exact g7 hc hz

/-- A worked run of the drain loop with two queued reports on a transport that always
connects, the first report delivered and answered, the second failing at its first send:
the loop ends with the queue empty after two connects and two closes, no socket is left
open, and the trace is connect, dequeue, request line, headers and body, read, close for
the first report, then connect, dequeue, request line, close for the second. -/
theorem drainLoop_fifo_witness :
    (∀ k, exampleTwoReports.net.connectOutcome k = ConnectOutcome.connected) ∧
    WSPRNet.drainLoop examplePid (exampleTwoReports.mReports.length + 0) exampleTwoReports =
      some ((WSPRNet.drainIteration examplePid)^[exampleTwoReports.mReports.length]
        exampleTwoReports) ∧
    (WSPRNet.drainLoop examplePid 2 exampleTwoReports).map
      (fun w => (w.mReports, w.net.connectCalls, w.net.closeCalls, w.net.openSockets,
        w.net.sendLog.length)) = some ([], 2, 2, 0, 3) ∧
    (WSPRNet.drainLoop examplePid 2 exampleTwoReports).map (fun w => w.net.trace) =
      some [Event.connect ConnectOutcome.connected, Event.dequeue exampleReport,
        Event.send requestText,
        Event.send (allText examplePid exampleTwoReports.operatorGrid exampleReport),
        Event.read, Event.close 0,
        Event.connect ConnectOutcome.connected, Event.dequeue exampleSecondReport,
        Event.send requestText, Event.close 0] :=
  ⟨fun _ => rfl,
   ((drainLoop_fifo examplePid exampleTwoReports (fun _ => rfl)).1 0).1,
   by decide, by decide⟩

/-- C12 fails as stated.  Every connection attempt succeeds, but every `closesocket` returns
`SOCKET_ERROR`: the socket of the first report is still open when the second connection is
made, so two connections are open while the second report is sent, and two are left open
when the loop ends with the queue empty after two connects and two calls of
`closeSocket`. -/
theorem drainLoop_two_open_counterexample :
    exampleCloseFails.net.connectOutcome = (fun _ => ConnectOutcome.connected) ∧
    (exampleCloseFails.net.openSockets = 0 ∧
    ((WSPRNet.drainIteration examplePid)^[1] exampleCloseFails).net.openSockets = 1 ∧
    ((WSPRNet.drainIteration examplePid)^[1] exampleCloseFails).net.connectSocket.2.openSockets
      = 2 ∧
    (sendReport examplePid exampleCloseFails.operatorGrid exampleSecondReport
      (((WSPRNet.drainIteration examplePid)^[1] exampleCloseFails).net.connectSocket.2.record
        (Event.dequeue exampleSecondReport))).2.openSockets = 2 ∧
    (WSPRNet.drainLoop examplePid 2 exampleCloseFails).map
      (fun w => (w.mReports, w.net.connectCalls, w.net.closeCalls, w.net.openSockets)) =
        some ([], 2, 2, 2)) :=
  ⟨rfl, by decide⟩

/-- C13 at the failing input.  One report is queued, `socket()` succeeds and `connect()`
fails.  The iteration starts with no open socket and ends with one: `connectSocket` returns
`false` without closing the socket it created and the loop continues without calling
`closeSocket`; after three such iterations three sockets are open and no close has been
made.  On the path where the connection is established the socket is closed: two delivered
reports leave no socket open. -/
theorem drainIteration_leaks_socket :
    exampleRefused.net.openSockets = 0 ∧
    (WSPRNet.drainIteration examplePid exampleRefused).net.openSockets = 1 ∧
    (WSPRNet.drainIteration examplePid exampleRefused).net.closeCalls = 0 ∧
    ((WSPRNet.drainIteration examplePid)^[3] exampleRefused).net.openSockets = 3 ∧
    ((WSPRNet.drainIteration examplePid)^[3] exampleRefused).net.closeCalls = 0 ∧
    ((WSPRNet.drainIteration examplePid)^[2] exampleTwoReports).net.openSockets = 0 ∧
    ((WSPRNet.drainIteration examplePid)^[2] exampleTwoReports).net.closeCalls = 2 := by
  decide
/-- In general: an iteration entered with a non-empty queue in which `socket()` succeeds and
`connect()` fails ends with one more open socket and no call of `closeSocket`. -/
theorem drainIteration_connect_failed_open (pid : ProgramId) (w : WSPRNet)
    (hq : w.mReports ≠ [])
    (h : w.net.connectOutcome w.net.connectCalls = ConnectOutcome.connectFailed) :
    (w.drainIteration pid).net.openSockets = w.net.openSockets + 1 ∧
    (w.drainIteration pid).net.closeCalls = w.net.closeCalls := by
  obtain ⟨report, rest, hw⟩ := List.exists_cons_of_ne_nil hq
  have hc : w.net.connectSocket = (false, { w.net with
      connectCalls := w.net.connectCalls + 1, openSockets := w.net.openSockets + 1,
      trace := w.net.trace ++ [Event.connect ConnectOutcome.connectFailed] }) := by
    unfold Net.connectSocket
    rw [h]
  rw [drainIteration_cons_failed pid w report rest hw (by rw [hc]), hc]
  exact ⟨rfl, rfl⟩

end CWSL
